import Mathlib

/-!
# Reduced-precision float storage types of Tensile

Two 32-bit storage types share the IEEE-754 binary32 layout and keep only the
upper 18 bits of a float:

* `Tensile.XFloat32` (`DataTypes_XFloat32.hpp`) narrows by truncation and maps
  every NaN to `XFloat32_Q_NAN_VALUE`;
* `tensile_xfloat32` (`tensile_xfloat32.h`) narrows by round-to-nearest-even and
  keeps NaNs apart.

A `float` is represented by its binary32 bit pattern, a natural number below
`2 ^ 32`; a `uint32_t` is a natural number below `2 ^ 32` as well.  The unions
the source uses to reinterpret a float as an integer are the identity on this
representation.  Arithmetic on `uint32_t` that can wrap is reduced modulo
`2 ^ 32` explicitly.

The built-in comparisons on float are given on patterns as IEEE-754 defines them
(`float_lt` and its siblings).  The float32 arithmetic and the library functions the
operators delegate to are kept abstract in `FloatOps`: what is proved about the
operators holds whatever these compute.  An operator that updates its operand returns
the new operand, and the increments return the pair of the returned value and the
operand afterwards.
-/

/-! ## IEEE-754 binary32 vocabulary -/

/-- Sign bit of a binary32 pattern, in place (bit 31). -/
def signBit (b : Nat) : Nat := b &&& 0x80000000

/-- Biased exponent field of a binary32 pattern (bits 30..23), shifted down. -/
def expField (b : Nat) : Nat := (b >>> 23) &&& 0xFF

/-- Mantissa field of a binary32 pattern (bits 22..0). -/
def mantissa (b : Nat) : Nat := b &&& 0x7FFFFF

/-- Magnitude of a binary32 pattern: the low 31 bits read as an unsigned integer. -/
def magnitude (b : Nat) : Nat := b &&& 0x7FFFFFFF

/-- Magnitude of the real number a finite binary32 pattern denotes, in units of
`2 ^ (-149)` (the smallest subnormal): `mantissa` for exponent field 0 (zero and
subnormals, value `mantissa * 2 ^ (-149)`), and `(2 ^ 23 + mantissa) * 2 ^ (e - 1)` for
exponent field `e ≥ 1` (normal numbers, value `(1 + mantissa / 2 ^ 23) * 2 ^ (e - 127)`). -/
def scaledMagnitude (b : Nat) : Nat :=
  if expField b = 0 then mantissa b else (2 ^ 23 + mantissa b) * 2 ^ (expField b - 1)

/-- The real number a finite binary32 pattern denotes, in units of `2 ^ (-149)`. -/
def scaledValue (b : Nat) : Int :=
  if signBit b = 0 then (scaledMagnitude b : Int) else -(scaledMagnitude b : Int)

/-- The classification `std::isnan` computes on a float: exponent field all
ones and mantissa field nonzero. -/
def std_isnan (v : Nat) : Bool := expField v == 0xFF && mantissa v != 0

/-- The classification `std::isinf` computes on a float: exponent field all
ones and mantissa field zero. -/
def std_isinf (v : Nat) : Bool := expField v == 0xFF && mantissa v == 0

/-- A float is finite when its exponent field is not all ones. -/
def isFiniteBits (v : Nat) : Prop := expField v ≠ 0xFF

instance (v : Nat) : Decidable (isFiniteBits v) :=
  inferInstanceAs (Decidable (expField v ≠ 0xFF))

/-- The operator `~` on a `uint32_t`. -/
def not32 (x : Nat) : Nat := x ^^^ 0xFFFFFFFF

/-- Place of a non-NaN binary32 pattern in the IEEE-754 order of values: the magnitude
with the sign applied.  Both zeros have key 0 and the infinities have the extreme keys. -/
def orderKey (b : Nat) : Int :=
  if signBit b = 0 then (magnitude b : Int) else -(magnitude b : Int)

/-- The built-in `<` on float: false when an operand is NaN, else the order of values. -/
def float_lt (a b : Nat) : Bool :=
  !std_isnan a && !std_isnan b && decide (orderKey a < orderKey b)

/-- The built-in `<=` on float: false when an operand is NaN. -/
def float_le (a b : Nat) : Bool :=
  !std_isnan a && !std_isnan b && decide (orderKey a ≤ orderKey b)

/-- The built-in `==` on float: false when an operand is NaN; `+0` equals `-0`. -/
def float_eq (a b : Nat) : Bool :=
  !std_isnan a && !std_isnan b && decide (orderKey a = orderKey b)

/-- The built-in `!=` on float: the negation of `==`, hence true when an operand is NaN. -/
def float_ne (a b : Nat) : Bool := !float_eq a b

/-- The built-in `>` on float: false when an operand is NaN. -/
def float_gt (a b : Nat) : Bool :=
  !std_isnan a && !std_isnan b && decide (orderKey a > orderKey b)

/-- The built-in `>=` on float: false when an operand is NaN. -/
def float_ge (a b : Nat) : Bool :=
  !std_isnan a && !std_isnan b && decide (orderKey a ≥ orderKey b)

/-- The float32 computations the operators delegate to, left abstract: the built-in
`+`, `-`, `*`, `/` on float, the conversion `static_cast<float>(int)`, and the library
functions `std::abs`, `std::sin` (`sinf`) and `std::cos` (`cosf`). -/
structure FloatOps where
  add : Nat → Nat → Nat
  sub : Nat → Nat → Nat
  mul : Nat → Nat → Nat
  div : Nat → Nat → Nat
  ofInt : Int → Nat
  abs : Nat → Nat
  sin : Nat → Nat
  cos : Nat → Nat

/-- An instance of the float32 computations for evaluating operators on concrete
operands: every computation returns the pattern of `+0`. -/
def zeroOps : FloatOps :=
  { add := fun _ _ => 0, sub := fun _ _ => 0, mul := fun _ _ => 0, div := fun _ _ => 0,
    ofInt := fun _ => 0, abs := fun _ => 0, sin := fun _ => 0, cos := fun _ => 0 }

/-! ## Truncating variant: `Tensile::XFloat32` -/

namespace Tensile

/-- The struct `XFloat32`: one public `uint32_t` field. -/
structure XFloat32 where
  data : Nat
deriving DecidableEq

namespace XFloat32

/-- The macro `XFloat32_Q_NAN_VALUE`. -/
def XFloat32_Q_NAN_VALUE : Nat := 0xFFC10000

/-- Widening: `q = v.data; return fp32;`. -/
def XFloat32_to_float (v : XFloat32) : Nat := v.data

/-- Narrowing by truncation of the lower 14 bits; NaN goes to the fixed pattern. -/
def float_to_XFloat32 (v : Nat) : XFloat32 :=
  if std_isnan v then
    { data := XFloat32_Q_NAN_VALUE }
  else
    { data := v &&& 0xFFFFC000 }

/-- The overload `std::iszero(const Tensile::XFloat32&)`. -/
def iszero (a : XFloat32) : Bool := (a.data &&& 0x7FFFC000) == 0

/-- The converting constructor `XFloat32(T const& value)` at a float:
`data(float_to_XFloat32(static_cast<float>(value)).data)`. -/
def ofFloat (value : Nat) : XFloat32 := { data := (float_to_XFloat32 value).data }

/-- The converting constructor at an `int`, which is first converted to float. -/
def ofInt (ops : FloatOps) (value : Int) : XFloat32 := ofFloat (ops.ofInt value)

/-- The conversion `operator float()`. -/
def toFloat (a : XFloat32) : Nat := XFloat32_to_float a

/-- The operator `+` on two `XFloat32`. -/
def add (ops : FloatOps) (a b : XFloat32) : XFloat32 :=
  ofFloat (ops.add (toFloat a) (toFloat b))

/-- The operator `+` on an `int` and an `XFloat32`. -/
def add_int_left (ops : FloatOps) (a : Int) (b : XFloat32) : XFloat32 :=
  ofFloat (ops.add (ops.ofInt a) (toFloat b))

/-- The operator `+` on an `XFloat32` and an `int`. -/
def add_int_right (ops : FloatOps) (a : XFloat32) (b : Int) : XFloat32 :=
  ofFloat (ops.add (toFloat a) (ops.ofInt b))

/-- The operator `-` on two `XFloat32`. -/
def sub (ops : FloatOps) (a b : XFloat32) : XFloat32 :=
  ofFloat (ops.sub (toFloat a) (toFloat b))

/-- The operator `*`. -/
def mul (ops : FloatOps) (a b : XFloat32) : XFloat32 :=
  ofFloat (ops.mul (toFloat a) (toFloat b))

/-- The operator `/`. -/
def div (ops : FloatOps) (a b : XFloat32) : XFloat32 :=
  ofFloat (ops.div (toFloat a) (toFloat b))

/-- The operator `<`. -/
def lt (a b : XFloat32) : Bool := float_lt (toFloat a) (toFloat b)

/-- The operator `<=`. -/
def le (a b : XFloat32) : Bool := float_le (toFloat a) (toFloat b)

/-- The operator `==`. -/
def eq (a b : XFloat32) : Bool := float_eq (toFloat a) (toFloat b)

/-- The operator `!=`. -/
def ne (a b : XFloat32) : Bool := float_ne (toFloat a) (toFloat b)

/-- The operator `>`. -/
def gt (a b : XFloat32) : Bool := float_gt (toFloat a) (toFloat b)

/-- The operator `>=`. -/
def ge (a b : XFloat32) : Bool := float_ge (toFloat a) (toFloat b)

/-- The operator `+=` (`a = a + b`): the new value of `a`, which is also what the
returned reference denotes. -/
def add_assign (ops : FloatOps) (a b : XFloat32) : XFloat32 := add ops a b

/-- The operator `-=`: the new value of `a`. -/
def sub_assign (ops : FloatOps) (a b : XFloat32) : XFloat32 := sub ops a b

/-- The operator `*=`: the new value of `a`. -/
def mul_assign (ops : FloatOps) (a b : XFloat32) : XFloat32 := mul ops a b

/-- The operator `/=`: the new value of `a`. -/
def div_assign (ops : FloatOps) (a b : XFloat32) : XFloat32 := div ops a b

/-- The pre-increment `++a` (`a += XFloat32(1); return a;`): the returned value and the
operand afterwards. -/
def pre_inc (ops : FloatOps) (a : XFloat32) : XFloat32 × XFloat32 :=
  let a1 := add_assign ops a (ofInt ops 1)
  (a1, a1)

/-- The post-increment `a++` (`original_value = a; ++a; return original_value;`): the
returned value and the operand afterwards. -/
def post_inc (ops : FloatOps) (a : XFloat32) : XFloat32 × XFloat32 :=
  let original_value := a
  (original_value, (pre_inc ops a).2)

/-- The overload `std::abs(const Tensile::XFloat32&)`. -/
def abs (ops : FloatOps) (a : XFloat32) : XFloat32 := ofFloat (ops.abs (toFloat a))

/-- The overload `std::sin(const Tensile::XFloat32&)`. -/
def sin (ops : FloatOps) (a : XFloat32) : XFloat32 := ofFloat (ops.sin (toFloat a))

/-- The overload `std::cos(const Tensile::XFloat32&)`. -/
def cos (ops : FloatOps) (a : XFloat32) : XFloat32 := ofFloat (ops.cos (toFloat a))

end XFloat32

end Tensile

/-! ## Rounding variant: `tensile_xfloat32` -/

/-- The struct `tensile_xfloat32`: one public `uint32_t` field. -/
structure tensile_xfloat32 where
  data : Nat
deriving DecidableEq

namespace tensile_xfloat32

/-- Narrowing by round-to-nearest-even on the 14 discarded bits.  The addition
is the `uint32_t` addition of the source, hence modulo `2 ^ 32`. -/
def float_to_xfloat32 (f : Nat) : Nat :=
  if (not32 f &&& 0x7f800000) != 0 then
    ((f + (0x1fff + ((f >>> 14) &&& 1))) % 2 ^ 32) &&& 0xffffc000
  else if (f &&& 0x3fff) != 0 then
    (f ||| 0x4000) &&& 0xffffc000
  else
    f &&& 0xffffc000

/-- The constructor `tensile_xfloat32(float f)`. -/
def ofFloat (f : Nat) : tensile_xfloat32 := { data := float_to_xfloat32 f }

/-- The conversion `operator float()`: the stored bits reinterpreted. -/
def toFloat (a : tensile_xfloat32) : Nat := a.data

/-- Unary minus: `a.data ^= 0x80000000`. -/
def neg (a : tensile_xfloat32) : tensile_xfloat32 := { data := a.data ^^^ 0x80000000 }

/-- The function `isinf(tensile_xfloat32)`. -/
def isinf (a : tensile_xfloat32) : Bool :=
  !((not32 a.data &&& 0x7f800000) != 0) && !((a.data &&& 0x7fc000) != 0)

/-- The function `isnan(tensile_xfloat32)`. -/
def isnan (a : tensile_xfloat32) : Bool :=
  !((not32 a.data &&& 0x7f800000) != 0) && ((a.data &&& 0x7fc000) != 0)

/-- The function `iszero(tensile_xfloat32)`. -/
def iszero (a : tensile_xfloat32) : Bool := !((a.data &&& 0x7fffc000) != 0)

/-- Unary plus: `return a;`. -/
def pos (a : tensile_xfloat32) : tensile_xfloat32 := a

/-- The operator `+` on two `tensile_xfloat32`. -/
def add (ops : FloatOps) (a b : tensile_xfloat32) : tensile_xfloat32 :=
  ofFloat (ops.add (toFloat a) (toFloat b))

/-- The operator `+` on an `int` and a `tensile_xfloat32`. -/
def add_int_left (ops : FloatOps) (a : Int) (b : tensile_xfloat32) : tensile_xfloat32 :=
  ofFloat (ops.add (ops.ofInt a) (toFloat b))

/-- The operator `+` on a `tensile_xfloat32` and an `int`. -/
def add_int_right (ops : FloatOps) (a : tensile_xfloat32) (b : Int) : tensile_xfloat32 :=
  ofFloat (ops.add (toFloat a) (ops.ofInt b))

/-- The operator `-` on two `tensile_xfloat32`. -/
def sub (ops : FloatOps) (a b : tensile_xfloat32) : tensile_xfloat32 :=
  ofFloat (ops.sub (toFloat a) (toFloat b))

/-- The operator `*`. -/
def mul (ops : FloatOps) (a b : tensile_xfloat32) : tensile_xfloat32 :=
  ofFloat (ops.mul (toFloat a) (toFloat b))

/-- The operator `/`. -/
def div (ops : FloatOps) (a b : tensile_xfloat32) : tensile_xfloat32 :=
  ofFloat (ops.div (toFloat a) (toFloat b))

/-- The operator `<`: `float(a) < float(b)`. -/
def lt (a b : tensile_xfloat32) : Bool := float_lt (toFloat a) (toFloat b)

/-- The operator `==`: `float(a) == float(b)`. -/
def eq (a b : tensile_xfloat32) : Bool := float_eq (toFloat a) (toFloat b)

/-- The operator `>`: `b < a`. -/
def gt (a b : tensile_xfloat32) : Bool := lt b a

/-- The operator `<=`: `!(a > b)`. -/
def le (a b : tensile_xfloat32) : Bool := !(gt a b)

/-- The operator `!=`: `!(a == b)`. -/
def ne (a b : tensile_xfloat32) : Bool := !(eq a b)

/-- The operator `>=`: `!(a < b)`. -/
def ge (a b : tensile_xfloat32) : Bool := !(lt a b)

/-- The operator `+=` (`return a = a + b;`): the new value of `a`. -/
def add_assign (ops : FloatOps) (a b : tensile_xfloat32) : tensile_xfloat32 := add ops a b

/-- The operator `-=`: the new value of `a`. -/
def sub_assign (ops : FloatOps) (a b : tensile_xfloat32) : tensile_xfloat32 := sub ops a b

/-- The operator `*=`: the new value of `a`. -/
def mul_assign (ops : FloatOps) (a b : tensile_xfloat32) : tensile_xfloat32 := mul ops a b

/-- The operator `/=`: the new value of `a`. -/
def div_assign (ops : FloatOps) (a b : tensile_xfloat32) : tensile_xfloat32 := div ops a b

/-- The pre-increment `++a` (`return a += tensile_xfloat32(1.0f);`, with `1.0f` the
pattern `0x3F800000`): the returned value and the operand afterwards. -/
def pre_inc (ops : FloatOps) (a : tensile_xfloat32) : tensile_xfloat32 × tensile_xfloat32 :=
  let a1 := add_assign ops a (ofFloat 0x3F800000)
  (a1, a1)

/-- The pre-decrement `--a` (`return a -= tensile_xfloat32(1.0f);`): the returned value
and the operand afterwards. -/
def pre_dec (ops : FloatOps) (a : tensile_xfloat32) : tensile_xfloat32 × tensile_xfloat32 :=
  let a1 := sub_assign ops a (ofFloat 0x3F800000)
  (a1, a1)

/-- The post-increment `a++` (`orig = a; ++a; return orig;`): the returned value and the
operand afterwards. -/
def post_inc (ops : FloatOps) (a : tensile_xfloat32) : tensile_xfloat32 × tensile_xfloat32 :=
  let orig := a
  (orig, (pre_inc ops a).2)

/-- The post-decrement `a--` (`orig = a; --a; return orig;`): the returned value and the
operand afterwards. -/
def post_dec (ops : FloatOps) (a : tensile_xfloat32) : tensile_xfloat32 × tensile_xfloat32 :=
  let orig := a
  (orig, (pre_dec ops a).2)

/-- The function `sin(tensile_xfloat32)`: `tensile_xfloat32(sinf(float(a)))`. -/
def sin (ops : FloatOps) (a : tensile_xfloat32) : tensile_xfloat32 :=
  ofFloat (ops.sin (toFloat a))

/-- The function `cos(tensile_xfloat32)`: `tensile_xfloat32(cosf(float(a)))`. -/
def cos (ops : FloatOps) (a : tensile_xfloat32) : tensile_xfloat32 :=
  ofFloat (ops.cos (toFloat a))

end tensile_xfloat32

/-! ## Bit fields as arithmetic

Every mask used by the source selects a contiguous run of bits, so each masked
value is a quotient and remainder by powers of two. -/

/-- Masking with `k` ones starting at bit `lo` selects that field in place. -/
theorem and_field (b lo k : Nat) :
    b &&& ((2 ^ k - 1) <<< lo) = ((b >>> lo) % 2 ^ k) <<< lo := by
  apply Nat.eq_of_testBit_eq
  intro i
  simp only [Nat.testBit_and, Nat.testBit_shiftLeft, Nat.testBit_shiftRight,
    Nat.testBit_mod_two_pow, Nat.testBit_two_pow_sub_one]
  by_cases h : lo ≤ i
  · have : lo + (i - lo) = i := by omega
    simp [h, this, Bool.and_comm]
  · simp [h]

/-- Bits of a number given as high part, one middle bit and a low part. -/
theorem testBit_three_fields (hi c lo k j : Nat) (hc : c < 2) (hlo : lo < 2 ^ k) :
    (2 ^ (k + 1) * hi + (2 ^ k * c + lo)).testBit j =
      if j < k then lo.testBit j
      else if j = k then decide (c = 1) else hi.testBit (j - (k + 1)) := by
  have hmid : 2 ^ k * c + lo < 2 ^ (k + 1) := by
    have : 2 ^ k * c ≤ 2 ^ k * 1 := Nat.mul_le_mul_left _ (by omega)
    rw [Nat.pow_succ]; omega
  rw [Nat.testBit_mul_pow_two_add hi hmid, Nat.testBit_mul_pow_two_add c hlo]
  by_cases h1 : j < k
  · have : j < k + 1 := by omega
    simp [h1, this]
  · by_cases h2 : j = k
    · subst h2
      have hc' : c = 0 ∨ c = 1 := by omega
      rcases hc' with rfl | rfl <;> simp
    · have : ¬ j < k + 1 := by omega
      simp [h1, h2, this]

/-- Every number splits at bit `k` into high part, bit `k` and low part. -/
theorem three_fields (b k : Nat) :
    b = 2 ^ (k + 1) * (b / 2 ^ (k + 1)) + (2 ^ k * (b / 2 ^ k % 2) + b % 2 ^ k) := by
  have h1 : b % 2 ^ (k + 1) = b % 2 ^ k + 2 ^ k * (b / 2 ^ k % 2) := Nat.mod_pow_succ
  have h2 := Nat.div_add_mod b (2 ^ (k + 1))
  omega

/-- Setting bit `k`. -/
theorem or_bit (b k : Nat) :
    b ||| 2 ^ k = 2 ^ (k + 1) * (b / 2 ^ (k + 1)) + (2 ^ k + b % 2 ^ k) := by
  have hlo : b % 2 ^ k < 2 ^ k := Nat.mod_lt _ (Nat.two_pow_pos k)
  have hc : b / 2 ^ k % 2 < 2 := Nat.mod_lt _ (by decide)
  apply Nat.eq_of_testBit_eq
  intro j
  have hR := testBit_three_fields (b / 2 ^ (k + 1)) 1 (b % 2 ^ k) k j (by decide) hlo
  rw [Nat.mul_one] at hR
  rw [hR, Nat.testBit_or, Nat.testBit_two_pow]
  conv => lhs; rw [three_fields b k]
  rw [testBit_three_fields _ _ _ k j hc hlo]
  by_cases h1 : j < k
  · have : ¬ k = j := by omega
    simp [h1, this]
  · by_cases h2 : j = k
    · simp [h2]
    · have : ¬ k = j := by omega
      simp [h1, h2, this]

/-- Flipping bit `k`. -/
theorem xor_bit (b k : Nat) :
    b ^^^ 2 ^ k =
      2 ^ (k + 1) * (b / 2 ^ (k + 1)) + (2 ^ k * (1 - b / 2 ^ k % 2) + b % 2 ^ k) := by
  have hlo : b % 2 ^ k < 2 ^ k := Nat.mod_lt _ (Nat.two_pow_pos k)
  have hc : b / 2 ^ k % 2 < 2 := Nat.mod_lt _ (by decide)
  apply Nat.eq_of_testBit_eq
  intro j
  rw [testBit_three_fields _ _ _ k j (by omega) hlo, Nat.testBit_xor, Nat.testBit_two_pow]
  conv => lhs; rw [three_fields b k]
  rw [testBit_three_fields _ _ _ k j hc hlo]
  by_cases h1 : j < k
  · have : ¬ k = j := by omega
    simp [h1, this]
  · by_cases h2 : j = k
    · have hc' : b / 2 ^ k % 2 = 0 ∨ b / 2 ^ k % 2 = 1 := by omega
      rcases hc' with h | h <;> simp [h2, h]
    · have : ¬ k = j := by omega
      simp [h1, h2, this]

theorem and_ffffc000 (b : Nat) : b &&& 0xffffc000 = b / 16384 % 262144 * 16384 := by
  simpa [Nat.shiftLeft_eq, Nat.shiftRight_eq_div_pow] using and_field b 14 18

theorem and_7fffc000 (b : Nat) : b &&& 0x7fffc000 = b / 16384 % 131072 * 16384 := by
  simpa [Nat.shiftLeft_eq, Nat.shiftRight_eq_div_pow] using and_field b 14 17

theorem and_7fc000 (b : Nat) : b &&& 0x7fc000 = b / 16384 % 512 * 16384 := by
  simpa [Nat.shiftLeft_eq, Nat.shiftRight_eq_div_pow] using and_field b 14 9

theorem and_7f800000 (b : Nat) : b &&& 0x7f800000 = b / 8388608 % 256 * 8388608 := by
  simpa [Nat.shiftLeft_eq, Nat.shiftRight_eq_div_pow] using and_field b 23 8

theorem and_80000000 (b : Nat) : b &&& 0x80000000 = b / 2147483648 % 2 * 2147483648 := by
  simpa [Nat.shiftLeft_eq, Nat.shiftRight_eq_div_pow] using and_field b 31 1

theorem and_400000 (b : Nat) : b &&& 0x400000 = b / 4194304 % 2 * 4194304 := by
  simpa [Nat.shiftLeft_eq, Nat.shiftRight_eq_div_pow] using and_field b 22 1

theorem and_4000 (b : Nat) : b &&& 0x4000 = b / 16384 % 2 * 16384 := by
  simpa [Nat.shiftLeft_eq, Nat.shiftRight_eq_div_pow] using and_field b 14 1

theorem and_3fff (b : Nat) : b &&& 0x3fff = b % 16384 := by
  simpa [Nat.shiftLeft_eq, Nat.shiftRight_eq_div_pow] using and_field b 0 14

theorem and_7fffff (b : Nat) : b &&& 0x7fffff = b % 8388608 := by
  simpa [Nat.shiftLeft_eq, Nat.shiftRight_eq_div_pow] using and_field b 0 23

theorem and_7fffffff (b : Nat) : b &&& 0x7fffffff = b % 2147483648 := by
  simpa [Nat.shiftLeft_eq, Nat.shiftRight_eq_div_pow] using and_field b 0 31

theorem and_ff (b : Nat) : b &&& 0xff = b % 256 := by
  simpa [Nat.shiftLeft_eq, Nat.shiftRight_eq_div_pow] using and_field b 0 8

theorem and_one_bit (b : Nat) : b &&& 1 = b % 2 := Nat.and_one_is_mod b

theorem shr_14 (b : Nat) : b >>> 14 = b / 16384 := by
  simp [Nat.shiftRight_eq_div_pow]

theorem shr_23 (b : Nat) : b >>> 23 = b / 8388608 := by
  simp [Nat.shiftRight_eq_div_pow]

theorem or_4000 (b : Nat) : b ||| 0x4000 = 32768 * (b / 32768) + (16384 + b % 16384) := by
  simpa using or_bit b 14

theorem xor_80000000 (b : Nat) :
    b ^^^ 0x80000000 =
      4294967296 * (b / 4294967296)
        + (2147483648 * (1 - b / 2147483648 % 2) + b % 2147483648) := by
  simpa using xor_bit b 31

/-- The exponent test of the source, `~x & 0x7f800000`, is zero exactly when
the exponent field is all ones. -/
theorem not32_and_exp (b : Nat) :
    (not32 b &&& 0x7f800000 = 0) ↔ b / 8388608 % 256 = 255 := by
  unfold not32
  rw [Nat.and_xor_distrib_right, Nat.xor_eq_zero, and_7f800000]
  have : (0xFFFFFFFF : Nat) &&& 0x7f800000 = 2139095040 := by decide
  rw [this]
  omega

theorem expField_eq (b : Nat) : expField b = b / 8388608 % 256 := by
  unfold expField
  rw [shr_23, and_ff]

theorem mantissa_eq (b : Nat) : mantissa b = b % 8388608 := and_7fffff b

theorem magnitude_eq (b : Nat) : magnitude b = b % 2147483648 := and_7fffffff b

theorem signBit_eq (b : Nat) : signBit b = b / 2147483648 % 2 * 2147483648 :=
  and_80000000 b

/-! ## The conversions as arithmetic -/

/-- The rounding conversion, with every mask read as a quotient or remainder. -/
theorem float_to_xfloat32_arith (f : Nat) :
    tensile_xfloat32.float_to_xfloat32 f =
      if f / 8388608 % 256 = 255 then
        if f % 16384 = 0 then f / 16384 % 262144 * 16384
        else (32768 * (f / 32768) + (16384 + f % 16384)) / 16384 % 262144 * 16384
      else (f + (8191 + f / 16384 % 2)) % 4294967296 / 16384 % 262144 * 16384 := by
  unfold tensile_xfloat32.float_to_xfloat32
  simp only [bne_iff_ne, ne_eq, not32_and_exp, and_3fff, and_ffffc000, or_4000, shr_14,
    and_one_bit, ite_not]
  norm_num

/-- The classification `std::isnan` as arithmetic on the pattern. -/
theorem std_isnan_arith (v : Nat) :
    std_isnan v = true ↔ v / 8388608 % 256 = 255 ∧ v % 8388608 ≠ 0 := by
  unfold std_isnan
  simp [expField_eq, mantissa_eq]

/-- The classification `std::isinf` as arithmetic on the pattern. -/
theorem std_isinf_arith (v : Nat) :
    std_isinf v = true ↔ v / 8388608 % 256 = 255 ∧ v % 8388608 = 0 := by
  unfold std_isinf
  simp [expField_eq, mantissa_eq]

/-- The truncating conversion, with every mask read as a quotient or remainder. -/
theorem float_to_XFloat32_arith (v : Nat) :
    (Tensile.XFloat32.float_to_XFloat32 v).data =
      if v / 8388608 % 256 = 255 ∧ v % 8388608 ≠ 0 then 4290838528
      else v / 16384 % 262144 * 16384 := by
  unfold Tensile.XFloat32.float_to_XFloat32
  by_cases h : std_isnan v = true
  · rw [if_pos h, if_pos ((std_isnan_arith v).1 h)]
    rfl
  · rw [if_neg h, if_neg (fun h2 => h ((std_isnan_arith v).2 h2))]
    exact and_ffffc000 v

/-- The rounding addition on a finite pattern never leaves the low 31 bits: the
result is the sign bit of the input plus the rounded magnitude. -/
theorem round_add_fields (b : Nat) (hfin : b / 8388608 % 256 ≠ 255) :
    (b + (8191 + b / 16384 % 2)) % 4294967296 / 16384 % 262144 * 16384 =
      b / 2147483648 % 2 * 2147483648
        + (b % 2147483648 + (8191 + b % 2147483648 / 16384 % 2)) / 16384 * 16384 := by
  have h1 : b / 16384 % 2 = b % 2147483648 / 16384 % 2 := by omega
  have h2 : b % 2147483648 < 2139095040 := by omega
  have h3 : (b + (8191 + b / 16384 % 2)) % 4294967296
      = b / 2147483648 % 2 * 2147483648 + (b % 2147483648 + (8191 + b / 16384 % 2)) := by
    omega
  rw [h3, ← h1]
  generalize b / 16384 % 2 = k at *
  generalize b % 2147483648 = m at *
  generalize b / 2147483648 % 2 = s at *
  omega

/-- The rounding conversion of a finite pattern: sign bit plus rounded magnitude. -/
theorem float_to_xfloat32_finite (b : Nat) (hfin : b / 8388608 % 256 ≠ 255) :
    tensile_xfloat32.float_to_xfloat32 b =
      b / 2147483648 % 2 * 2147483648
        + (b % 2147483648 + (8191 + b % 2147483648 / 16384 % 2)) / 16384 * 16384 := by
  rw [float_to_xfloat32_arith, if_neg hfin, round_add_fields b hfin]

/-- The magnitude of a finite pattern is below that of infinity. -/
theorem magnitude_lt_of_finite (b : Nat) (hfin : b / 8388608 % 256 ≠ 255) :
    b % 2147483648 < 2139095040 := by
  omega

/-- Sign and magnitude of the rounding conversion of a finite pattern. -/
theorem float_to_xfloat32_finite_fields (b : Nat) (hfin : b / 8388608 % 256 ≠ 255) :
    tensile_xfloat32.float_to_xfloat32 b % 2147483648
        = (b % 2147483648 + (8191 + b % 2147483648 / 16384 % 2)) / 16384 * 16384 ∧
      tensile_xfloat32.float_to_xfloat32 b / 2147483648 % 2 = b / 2147483648 % 2 := by
  rw [float_to_xfloat32_finite b hfin]
  have hm := magnitude_lt_of_finite b hfin
  have hs : b / 2147483648 % 2 < 2 := Nat.mod_lt _ (by decide)
  generalize b % 2147483648 = m at *
  generalize b / 2147483648 % 2 = s at *
  have hr : (m + (8191 + m / 16384 % 2)) / 16384 * 16384 ≤ 2139095040 := by omega
  generalize (m + (8191 + m / 16384 % 2)) / 16384 * 16384 = r at *
  constructor <;> omega

/-- A pattern is a NaN exactly when its magnitude exceeds that of infinity. -/
theorem nan_iff_magnitude (v : Nat) :
    (v / 8388608 % 256 = 255 ∧ v % 8388608 ≠ 0) ↔ 2139095040 < v % 2147483648 := by
  omega

/-- A pattern is an infinity exactly when its magnitude is `0x7F800000`. -/
theorem inf_iff_magnitude (v : Nat) :
    (v / 8388608 % 256 = 255 ∧ v % 8388608 = 0) ↔ v % 2147483648 = 2139095040 := by
  omega

/-- The rounded magnitude of a finite pattern is at most that of infinity. -/
theorem float_to_xfloat32_finite_le (b : Nat) (hfin : b / 8388608 % 256 ≠ 255) :
    tensile_xfloat32.float_to_xfloat32 b % 2147483648 ≤ 2139095040 := by
  rw [(float_to_xfloat32_finite_fields b hfin).1]
  have hm := magnitude_lt_of_finite b hfin
  generalize b % 2147483648 = m at *
  omega

/-! ## Real values of finite patterns -/

/-- The scaled magnitude, with the fields read as quotient and remainder. -/
theorem scaledMagnitude_arith (x : Nat) :
    scaledMagnitude x =
      if x / 8388608 % 256 = 0 then x % 8388608
      else (8388608 + x % 8388608) * 2 ^ (x / 8388608 % 256 - 1) := by
  unfold scaledMagnitude
  rw [expField_eq, mantissa_eq]
  norm_num

/-- The next pattern of a finite pattern is one unit in the last place further. -/
theorem scaledMagnitude_succ (x : Nat) (hfin : x / 8388608 % 256 ≠ 255) :
    scaledMagnitude (x + 1) = scaledMagnitude x + 2 ^ (x / 8388608 % 256 - 1) := by
  rw [scaledMagnitude_arith, scaledMagnitude_arith]
  by_cases ht : x % 8388608 + 1 < 8388608
  · have he : (x + 1) / 8388608 % 256 = x / 8388608 % 256 := by omega
    have hm : (x + 1) % 8388608 = x % 8388608 + 1 := by omega
    rw [he, hm]
    by_cases h0 : x / 8388608 % 256 = 0
    · rw [if_pos h0, if_pos h0, h0]
      simp
    · rw [if_neg h0, if_neg h0]
      ring
  · have he : (x + 1) / 8388608 % 256 = x / 8388608 % 256 + 1 := by omega
    have hm : (x + 1) % 8388608 = 0 := by omega
    have hx : x % 8388608 = 8388607 := by omega
    rw [he, hm, hx, if_neg (by omega)]
    by_cases h0 : x / 8388608 % 256 = 0
    · rw [if_pos h0, h0]
      norm_num
    · rw [if_neg h0]
      obtain ⟨e, he'⟩ : ∃ e, x / 8388608 % 256 = e + 1 := ⟨x / 8388608 % 256 - 1, by omega⟩
      rw [he']
      simp only [Nat.add_sub_cancel]
      rw [Nat.pow_succ]
      ring

/-- Inside one binade, and up to the first pattern of the next, the scaled magnitude
is affine in the pattern. -/
theorem scaledMagnitude_add (a k : Nat) (hfin : a / 8388608 % 256 ≠ 255)
    (hk : a % 8388608 + k ≤ 8388608) :
    scaledMagnitude (a + k) = scaledMagnitude a + k * 2 ^ (a / 8388608 % 256 - 1) := by
  induction k with
  | zero => simp
  | succ n ih =>
    have he : (a + n) / 8388608 % 256 = a / 8388608 % 256 := by omega
    have hfin' : (a + n) / 8388608 % 256 ≠ 255 := by omega
    rw [← Nat.add_assoc, scaledMagnitude_succ (a + n) hfin', ih (by omega), he]
    ring

/-- The scaled magnitude is monotone in the pattern, up to the pattern of infinity. -/
theorem scaledMagnitude_mono (a b : Nat) (hab : a ≤ b) (hb : b ≤ 2139095040) :
    scaledMagnitude a ≤ scaledMagnitude b := by
  induction b, hab using Nat.le_induction with
  | base => exact Nat.le_refl _
  | succ n hn ih =>
    have hfin : n / 8388608 % 256 ≠ 255 := by omega
    rw [scaledMagnitude_succ n hfin]
    exact Nat.le_trans (ih (by omega)) (Nat.le_add_right _ _)

/-- The scaled magnitude does not depend on the sign bit. -/
theorem scaledMagnitude_mod (x : Nat) :
    scaledMagnitude x = scaledMagnitude (x % 2147483648) := by
  rw [scaledMagnitude_arith, scaledMagnitude_arith]
  have he : x % 2147483648 / 8388608 % 256 = x / 8388608 % 256 := by omega
  have hm : x % 2147483648 % 8388608 = x % 8388608 := by omega
  rw [he, hm]

/-- Within one rounding cell the scaled value is affine in the pattern. -/
theorem scaledMagnitude_cell (m : Nat) (hm : m < 2139095040) :
    ∃ u : Nat, 0 < u ∧
      scaledMagnitude m = scaledMagnitude (m / 16384 * 16384) + m % 16384 * u ∧
      scaledMagnitude (m / 16384 * 16384 + 16384)
        = scaledMagnitude (m / 16384 * 16384) + 16384 * u := by
  have hfin : m / 16384 * 16384 / 8388608 % 256 ≠ 255 := by omega
  refine ⟨2 ^ (m / 16384 * 16384 / 8388608 % 256 - 1), Nat.two_pow_pos _, ?_, ?_⟩
  · have h := scaledMagnitude_add (m / 16384 * 16384) (m % 16384) hfin (by omega)
    have hsum : m / 16384 * 16384 + m % 16384 = m := by omega
    rw [hsum] at h
    exact h
  · exact scaledMagnitude_add (m / 16384 * 16384) 16384 hfin (by omega)

/-- On a tie the rounding addition ends on an even multiple of `2 ^ 14`, one of the two
neighbours of the input. -/
theorem round_tie_even (m : Nat) (hl : m % 16384 = 8192) :
    (m + (8191 + m / 16384 % 2)) / 16384 % 2 = 0 ∧
      ((m + (8191 + m / 16384 % 2)) / 16384 * 16384 = m / 16384 * 16384
        ∨ (m + (8191 + m / 16384 % 2)) / 16384 * 16384 = m / 16384 * 16384 + 16384) := by
  have hq : m / 16384 % 2 = 0 ∨ m / 16384 % 2 = 1 := by omega
  rcases hq with h | h
  · have hd : (m + (8191 + m / 16384 % 2)) / 16384 = m / 16384 := by omega
    rw [hd]
    exact ⟨h, Or.inl rfl⟩
  · have hd : (m + (8191 + m / 16384 % 2)) / 16384 = m / 16384 + 1 := by omega
    rw [hd]
    constructor <;> omega

/-- Value-level rounding on magnitudes: the rounded magnitude is nearest in value among
finite multiples of `2 ^ 14`, and a different-valued candidate at the same distance
forces an even result. -/
theorem round_value_nearest (m c : Nat) (hm : m < 2139095040) (hc : c < 2139095040)
    (hc14 : c % 16384 = 0) :
    ((scaledMagnitude ((m + (8191 + m / 16384 % 2)) / 16384 * 16384) : Int)
          - scaledMagnitude m).natAbs
        ≤ ((scaledMagnitude c : Int) - scaledMagnitude m).natAbs ∧
      ((scaledMagnitude ((m + (8191 + m / 16384 % 2)) / 16384 * 16384) : Int)
          - scaledMagnitude m).natAbs ≤ scaledMagnitude m ∧
      (scaledMagnitude c ≠ scaledMagnitude ((m + (8191 + m / 16384 % 2)) / 16384 * 16384) →
        ((scaledMagnitude ((m + (8191 + m / 16384 % 2)) / 16384 * 16384) : Int)
            - scaledMagnitude m).natAbs
          = ((scaledMagnitude c : Int) - scaledMagnitude m).natAbs →
        (m + (8191 + m / 16384 % 2)) / 16384 % 2 = 0) := by
  obtain ⟨u, hu, hM, hH⟩ := scaledMagnitude_cell m hm
  have hlo : scaledMagnitude c ≤ scaledMagnitude (m / 16384 * 16384)
      ∨ scaledMagnitude (m / 16384 * 16384 + 16384) ≤ scaledMagnitude c := by
    by_cases h : c ≤ m / 16384 * 16384
    · exact Or.inl (scaledMagnitude_mono _ _ h (by omega))
    · exact Or.inr (scaledMagnitude_mono _ _ (by omega) (by omega))
  have hX : m % 16384 * u ≤ 16384 * u := Nat.mul_le_mul_right u (by omega)
  rcases Nat.lt_trichotomy (m % 16384) 8192 with hl | hl | hl
  · have hr : (m + (8191 + m / 16384 % 2)) / 16384 * 16384 = m / 16384 * 16384 := by omega
    have hX2 : (m % 16384 + 1) * u ≤ 8192 * u := Nat.mul_le_mul_right u (by omega)
    rw [Nat.add_mul, Nat.one_mul] at hX2
    rw [hr, hM]
    generalize m % 16384 * u = X at *
    generalize scaledMagnitude (m / 16384 * 16384) = L at *
    generalize scaledMagnitude (m / 16384 * 16384 + 16384) = H at *
    generalize scaledMagnitude c = C at *
    omega
  · obtain ⟨hpar, hr⟩ := round_tie_even m hl
    have hX2 : m % 16384 * u = 8192 * u := by rw [hl]
    refine ⟨?_, ?_, fun _ _ => hpar⟩
    · rcases hr with hr | hr
      · rw [hr, hM]
        generalize m % 16384 * u = X at *
        generalize scaledMagnitude (m / 16384 * 16384) = L at *
        generalize scaledMagnitude (m / 16384 * 16384 + 16384) = H at *
        generalize scaledMagnitude c = C at *
        omega
      · rw [hr, hM, hH]
        generalize m % 16384 * u = X at *
        generalize scaledMagnitude (m / 16384 * 16384) = L at *
        generalize scaledMagnitude (m / 16384 * 16384 + 16384) = H at *
        generalize scaledMagnitude c = C at *
        omega
    · rcases hr with hr | hr
      · rw [hr, hM]
        generalize m % 16384 * u = X at *
        generalize scaledMagnitude (m / 16384 * 16384) = L at *
        omega
      · rw [hr, hM, hH]
        generalize m % 16384 * u = X at *
        generalize scaledMagnitude (m / 16384 * 16384) = L at *
        omega
  · have hr : (m + (8191 + m / 16384 % 2)) / 16384 * 16384 = m / 16384 * 16384 + 16384 := by
      omega
    have hX2 : (8192 + 1) * u ≤ m % 16384 * u := Nat.mul_le_mul_right u (by omega)
    rw [Nat.add_mul, Nat.one_mul] at hX2
    rw [hr, hM, hH]
    generalize m % 16384 * u = X at *
    generalize scaledMagnitude (m / 16384 * 16384) = L at *
    generalize scaledMagnitude (m / 16384 * 16384 + 16384) = H at *
    generalize scaledMagnitude c = C at *
    omega

/-- The scaled value, with sign and magnitude read as quotient and remainder. -/
theorem scaledValue_arith (x : Nat) :
    scaledValue x =
      if x / 2147483648 % 2 = 0 then (scaledMagnitude (x % 2147483648) : Int)
      else -(scaledMagnitude (x % 2147483648) : Int) := by
  unfold scaledValue
  rw [signBit_eq, ← scaledMagnitude_mod]
  by_cases h : x / 2147483648 % 2 = 0
  · rw [if_pos h, if_pos (by omega)]
  · rw [if_neg h, if_neg (by omega)]

/-- Value-level rounding on signed patterns: a pattern `r` with the sign of `b` and the
rounded magnitude of `b` is nearest in value to `b` among finite patterns with 14
trailing zero bits, and a candidate of another value at the same distance forces bit 14
of `r` to be 0. -/
theorem round_value_signed (b r c : Nat) (hfin : b / 8388608 % 256 ≠ 255)
    (hmag : r % 2147483648
      = (b % 2147483648 + (8191 + b % 2147483648 / 16384 % 2)) / 16384 * 16384)
    (hsgn : r / 2147483648 % 2 = b / 2147483648 % 2)
    (hc : c / 8388608 % 256 ≠ 255) (hc14 : c % 16384 = 0) :
    |scaledValue r - scaledValue b| ≤ |scaledValue c - scaledValue b| ∧
      (scaledValue c ≠ scaledValue r →
        |scaledValue c - scaledValue b| = |scaledValue r - scaledValue b| →
        r / 16384 % 2 = 0) := by
  have hm := magnitude_lt_of_finite b hfin
  have hcm := magnitude_lt_of_finite c hc
  have hcm14 : c % 2147483648 % 16384 = 0 := by omega
  obtain ⟨h1, h2, h3⟩ := round_value_nearest (b % 2147483648) (c % 2147483648) hm hcm hcm14
  have hpar : r / 16384 % 2 = r % 2147483648 / 16384 % 2 := by omega
  have hpar2 : (b % 2147483648 + (8191 + b % 2147483648 / 16384 % 2)) / 16384 * 16384
      / 16384 = (b % 2147483648 + (8191 + b % 2147483648 / 16384 % 2)) / 16384 := by
    omega
  rw [hpar, hmag, hpar2]
  rw [scaledValue_arith r, scaledValue_arith b, scaledValue_arith c, hsgn, hmag]
  simp only [Int.abs_eq_natAbs]
  generalize scaledMagnitude
    ((b % 2147483648 + (8191 + b % 2147483648 / 16384 % 2)) / 16384 * 16384) = R at *
  generalize scaledMagnitude (b % 2147483648) = M at *
  generalize scaledMagnitude (c % 2147483648) = C at *
  generalize (b % 2147483648 + (8191 + b % 2147483648 / 16384 % 2)) / 16384 % 2 = par at *
  by_cases hs : b / 2147483648 % 2 = 0 <;> by_cases hcs : c / 2147483648 % 2 = 0
  · rw [if_pos hs, if_pos hcs]
    constructor
    · omega
    · intro hne heq
      exact h3 (by omega) (by omega)
  · rw [if_pos hs, if_neg hcs]
    constructor
    · omega
    · intro hne heq
      omega
  · rw [if_neg hs, if_pos hcs]
    constructor
    · omega
    · intro hne heq
      omega
  · rw [if_neg hs, if_neg hcs]
    constructor
    · omega
    · intro hne heq
      exact h3 (by omega) (by omega)

/-! ## Claims -/

/-- C1: after either conversion from float32 (truncating or rounding), whatever the
input pattern, the low 14 bits of the stored pattern are zero. -/
theorem low14_zero_after_conversion (f : Nat) :
    (Tensile.XFloat32.float_to_XFloat32 f).data &&& 0x3FFF = 0 ∧
      tensile_xfloat32.float_to_xfloat32 f &&& 0x3FFF = 0 := by
  rw [and_3fff, and_3fff, float_to_XFloat32_arith, float_to_xfloat32_arith]
  constructor
  · split <;> omega
  · split
    · split <;> omega
    · omega

/-- C2: for a finite float32 with pattern `b`, truncating and widening gives
`b & 0xFFFFC000`: sign and exponent field are those of `b`, the mantissa is that of
`b` with its low 14 bits cleared, and the magnitude does not exceed that of `b`, with
equality exactly when the low 14 bits of `b` are zero. -/
theorem truncation_roundtrip (b : Nat) (hfin : isFiniteBits b) :
    Tensile.XFloat32.XFloat32_to_float (Tensile.XFloat32.float_to_XFloat32 b)
        = b &&& 0xFFFFC000 ∧
      signBit (Tensile.XFloat32.XFloat32_to_float (Tensile.XFloat32.float_to_XFloat32 b))
        = signBit b ∧
      expField (Tensile.XFloat32.XFloat32_to_float (Tensile.XFloat32.float_to_XFloat32 b))
        = expField b ∧
      mantissa (Tensile.XFloat32.XFloat32_to_float (Tensile.XFloat32.float_to_XFloat32 b))
        = mantissa b &&& 0x7FC000 ∧
      magnitude (Tensile.XFloat32.XFloat32_to_float (Tensile.XFloat32.float_to_XFloat32 b))
        ≤ magnitude b ∧
      (magnitude (Tensile.XFloat32.XFloat32_to_float (Tensile.XFloat32.float_to_XFloat32 b))
        = magnitude b ↔ b &&& 0x3FFF = 0) := by
  unfold isFiniteBits at hfin
  rw [expField_eq] at hfin
  have hr : Tensile.XFloat32.XFloat32_to_float (Tensile.XFloat32.float_to_XFloat32 b)
      = b / 16384 % 262144 * 16384 := by
    unfold Tensile.XFloat32.XFloat32_to_float
    rw [float_to_XFloat32_arith, if_neg (fun h => hfin h.1)]
  rw [hr]
  simp only [signBit_eq, expField_eq, mantissa_eq, magnitude_eq, and_ffffc000, and_7fc000,
    and_3fff]
  refine ⟨trivial, ?_, ?_, ?_, ?_, ?_⟩ <;> omega

/-- C2 at pi (`0x40490FDB`), which truncates to `0x40490000`. -/
theorem truncation_roundtrip_witness :
    isFiniteBits 0x40490FDB ∧
      (Tensile.XFloat32.XFloat32_to_float (Tensile.XFloat32.float_to_XFloat32 0x40490FDB)
          = 0x40490FDB &&& 0xFFFFC000 ∧
        signBit (Tensile.XFloat32.XFloat32_to_float
            (Tensile.XFloat32.float_to_XFloat32 0x40490FDB)) = signBit 0x40490FDB ∧
        expField (Tensile.XFloat32.XFloat32_to_float
            (Tensile.XFloat32.float_to_XFloat32 0x40490FDB)) = expField 0x40490FDB ∧
        mantissa (Tensile.XFloat32.XFloat32_to_float
            (Tensile.XFloat32.float_to_XFloat32 0x40490FDB))
          = mantissa 0x40490FDB &&& 0x7FC000 ∧
        magnitude (Tensile.XFloat32.XFloat32_to_float
            (Tensile.XFloat32.float_to_XFloat32 0x40490FDB)) ≤ magnitude 0x40490FDB ∧
        (magnitude (Tensile.XFloat32.XFloat32_to_float
            (Tensile.XFloat32.float_to_XFloat32 0x40490FDB)) = magnitude 0x40490FDB
          ↔ 0x40490FDB &&& 0x3FFF = 0)) :=
  ⟨by decide, truncation_roundtrip 0x40490FDB (by decide)⟩

/-- C3: for a finite float32 `b` whose rounding does not reach the all-ones exponent,
the widened rounding conversion is round-to-nearest-even.  On values: the result is at
least as close to `b` as every finite float32 `c` with 14 trailing zero mantissa bits,
and if such a `c` of another value is exactly as close (so `b` lies halfway), bit 14 of
the result is 0.  On bit patterns: with `m` the magnitude of `b` and `r` the magnitude of
the result, `r` is a multiple of `2 ^ 14`, the sign bit is unchanged, `|r - m| ≤ |c - m|`
for every multiple `c` of `2 ^ 14`, and when `|r - m| = 0x2000` bit 14 of `r` is 0.
The premise on the result makes its value a real number; the inequalities themselves
hold on the patterns of every finite input. -/
theorem rounding_nearest_even (b : Nat) (hfin : isFiniteBits b)
    (_hno : isFiniteBits (tensile_xfloat32.toFloat (tensile_xfloat32.ofFloat b))) :
    (∀ c : Nat, isFiniteBits c → c &&& 0x3FFF = 0 →
        |scaledValue (tensile_xfloat32.toFloat (tensile_xfloat32.ofFloat b)) - scaledValue b|
          ≤ |scaledValue c - scaledValue b|) ∧
      (∀ c : Nat, isFiniteBits c → c &&& 0x3FFF = 0 →
        scaledValue c ≠ scaledValue (tensile_xfloat32.toFloat (tensile_xfloat32.ofFloat b)) →
        |scaledValue c - scaledValue b|
          = |scaledValue (tensile_xfloat32.toFloat (tensile_xfloat32.ofFloat b))
              - scaledValue b| →
        tensile_xfloat32.toFloat (tensile_xfloat32.ofFloat b) &&& 0x4000 = 0) ∧
      magnitude (tensile_xfloat32.toFloat (tensile_xfloat32.ofFloat b)) % 2 ^ 14 = 0 ∧
      signBit (tensile_xfloat32.toFloat (tensile_xfloat32.ofFloat b)) = signBit b ∧
      (∀ c : Nat, c % 2 ^ 14 = 0 →
        |(magnitude (tensile_xfloat32.toFloat (tensile_xfloat32.ofFloat b)) : Int)
            - (magnitude b : Int)|
          ≤ |(c : Int) - (magnitude b : Int)|) ∧
      (|(magnitude (tensile_xfloat32.toFloat (tensile_xfloat32.ofFloat b)) : Int)
            - (magnitude b : Int)| = 0x2000 →
        magnitude (tensile_xfloat32.toFloat (tensile_xfloat32.ofFloat b)) &&& 0x4000 = 0) := by
  unfold isFiniteBits at hfin
  rw [expField_eq] at hfin
  obtain ⟨hmag, hsgn⟩ := float_to_xfloat32_finite_fields b hfin
  have hr : tensile_xfloat32.toFloat (tensile_xfloat32.ofFloat b)
      = tensile_xfloat32.float_to_xfloat32 b := rfl
  rw [hr]
  refine ⟨?_, ?_, ?_⟩
  · intro c hc hc14
    unfold isFiniteBits at hc
    rw [expField_eq] at hc
    rw [and_3fff] at hc14
    exact (round_value_signed b _ c hfin hmag hsgn hc hc14).1
  · intro c hc hc14 hne heq
    unfold isFiniteBits at hc
    rw [expField_eq] at hc
    rw [and_3fff] at hc14
    rw [and_4000, (round_value_signed b _ c hfin hmag hsgn hc hc14).2 hne heq]
  · simp only [signBit_eq, magnitude_eq, and_4000, Int.abs_eq_natAbs, Nat.reducePow, hmag,
      hsgn]
    generalize b % 2147483648 = m
    refine ⟨?_, trivial, ?_, ?_⟩
    · omega
    · intro c hc
      omega
    · omega

/-- C3 at `0x3F802000` (a tie below an even neighbour), which rounds to `0x3F800000`. -/
theorem rounding_nearest_even_witness :
    isFiniteBits 0x3F802000 ∧
      isFiniteBits (tensile_xfloat32.toFloat (tensile_xfloat32.ofFloat 0x3F802000)) ∧
      ((∀ c : Nat, isFiniteBits c → c &&& 0x3FFF = 0 →
          |scaledValue (tensile_xfloat32.toFloat (tensile_xfloat32.ofFloat 0x3F802000))
              - scaledValue 0x3F802000|
            ≤ |scaledValue c - scaledValue 0x3F802000|) ∧
        (∀ c : Nat, isFiniteBits c → c &&& 0x3FFF = 0 →
          scaledValue c
            ≠ scaledValue (tensile_xfloat32.toFloat (tensile_xfloat32.ofFloat 0x3F802000)) →
          |scaledValue c - scaledValue 0x3F802000|
            = |scaledValue (tensile_xfloat32.toFloat (tensile_xfloat32.ofFloat 0x3F802000))
                - scaledValue 0x3F802000| →
          tensile_xfloat32.toFloat (tensile_xfloat32.ofFloat 0x3F802000) &&& 0x4000 = 0) ∧
        magnitude (tensile_xfloat32.toFloat (tensile_xfloat32.ofFloat 0x3F802000)) % 2 ^ 14
          = 0 ∧
        signBit (tensile_xfloat32.toFloat (tensile_xfloat32.ofFloat 0x3F802000))
          = signBit 0x3F802000 ∧
        (∀ c : Nat, c % 2 ^ 14 = 0 →
          |(magnitude (tensile_xfloat32.toFloat (tensile_xfloat32.ofFloat 0x3F802000)) : Int)
              - (magnitude 0x3F802000 : Int)|
            ≤ |(c : Int) - (magnitude 0x3F802000 : Int)|) ∧
        (|(magnitude (tensile_xfloat32.toFloat (tensile_xfloat32.ofFloat 0x3F802000)) : Int)
              - (magnitude 0x3F802000 : Int)| = 0x2000 →
          magnitude (tensile_xfloat32.toFloat (tensile_xfloat32.ofFloat 0x3F802000))
            &&& 0x4000 = 0)) :=
  ⟨by decide, by decide, rounding_nearest_even 0x3F802000 (by decide) (by decide)⟩

/-- C4: the truncating conversion sends every NaN input (either sign, quiet or
signaling, any payload) to `0xFFC10000`, and that pattern is a quiet NaN (exponent all
ones, mantissa bit 22 set) whose low 14 bits are zero. -/
theorem nan_canonicalization (f : Nat) (hnan : std_isnan f = true) :
    (Tensile.XFloat32.float_to_XFloat32 f).data = 0xFFC10000 ∧
      expField 0xFFC10000 = 0xFF ∧
      mantissa 0xFFC10000 &&& 0x400000 = 0x400000 ∧
      std_isnan 0xFFC10000 = true ∧
      (0xFFC10000 : Nat) &&& 0x3FFF = 0 := by
  refine ⟨?_, by decide, by decide, by decide, by decide⟩
  unfold Tensile.XFloat32.float_to_XFloat32
  rw [if_pos hnan]
  rfl

/-- C4 at the positive signaling NaN `0x7F800001`. -/
theorem nan_canonicalization_witness :
    std_isnan 0x7F800001 = true ∧
      ((Tensile.XFloat32.float_to_XFloat32 0x7F800001).data = 0xFFC10000 ∧
        expField 0xFFC10000 = 0xFF ∧
        mantissa 0xFFC10000 &&& 0x400000 = 0x400000 ∧
        std_isnan 0xFFC10000 = true ∧
        (0xFFC10000 : Nat) &&& 0x3FFF = 0) :=
  ⟨by decide, nan_canonicalization 0x7F800001 (by decide)⟩

/-- C5: the rounding conversion of a NaN with pattern `b` is a NaN (exponent all ones,
mantissa nonzero) with the sign bit and the quiet bit (bit 22) of `b`; when the low 14
bits of `b` are zero the result is `b` itself, and when some of them is set the result
has the guard bit `0x4000` set. -/
theorem nan_preservation (b : Nat) (hb : b < 2 ^ 32) (hnan : std_isnan b = true) :
    expField (tensile_xfloat32.float_to_xfloat32 b) = 0xFF ∧
      mantissa (tensile_xfloat32.float_to_xfloat32 b) ≠ 0 ∧
      signBit (tensile_xfloat32.float_to_xfloat32 b) = signBit b ∧
      tensile_xfloat32.float_to_xfloat32 b &&& 0x400000 = b &&& 0x400000 ∧
      (b &&& 0x3FFF = 0 → tensile_xfloat32.float_to_xfloat32 b = b) ∧
      (b &&& 0x3FFF ≠ 0 → tensile_xfloat32.float_to_xfloat32 b &&& 0x4000 = 0x4000) := by
  obtain ⟨hexp, hman⟩ := (std_isnan_arith b).1 hnan
  rw [float_to_xfloat32_arith, if_pos hexp]
  simp only [expField_eq, mantissa_eq, signBit_eq, and_400000, and_3fff, and_4000,
    Nat.reducePow] at hb ⊢
  by_cases hlow : b % 16384 = 0
  · rw [if_pos hlow]
    refine ⟨?_, ?_, ?_, ?_, ?_, ?_⟩ <;> omega
  · rw [if_neg hlow]
    refine ⟨?_, ?_, ?_, ?_, ?_, ?_⟩ <;> omega

/-- C5 at the signaling NaN `0x7F800001`, whose payload lies in the discarded bits: the
result is `0x7F804000`. -/
theorem nan_preservation_witness :
    0x7F800001 < 2 ^ 32 ∧ std_isnan 0x7F800001 = true ∧
      (expField (tensile_xfloat32.float_to_xfloat32 0x7F800001) = 0xFF ∧
        mantissa (tensile_xfloat32.float_to_xfloat32 0x7F800001) ≠ 0 ∧
        signBit (tensile_xfloat32.float_to_xfloat32 0x7F800001) = signBit 0x7F800001 ∧
        tensile_xfloat32.float_to_xfloat32 0x7F800001 &&& 0x400000
          = 0x7F800001 &&& 0x400000 ∧
        (0x7F800001 &&& 0x3FFF = 0 →
          tensile_xfloat32.float_to_xfloat32 0x7F800001 = 0x7F800001) ∧
        (0x7F800001 &&& 0x3FFF ≠ 0 →
          tensile_xfloat32.float_to_xfloat32 0x7F800001 &&& 0x4000 = 0x4000)) :=
  ⟨by decide, by decide, nan_preservation 0x7F800001 (by decide) (by decide)⟩

/-- C6: narrowing a widened value that is already in reduced form (low 14 bits zero)
and finite gives back the same bit pattern, in the truncating variant and in the
rounding variant. -/
theorem narrowing_idempotent (x : Nat) (hx : x < 2 ^ 32) (hred : x &&& 0x3FFF = 0)
    (hfin : isFiniteBits x) :
    (Tensile.XFloat32.float_to_XFloat32
        (Tensile.XFloat32.XFloat32_to_float { data := x })).data = x ∧
      tensile_xfloat32.float_to_xfloat32 (tensile_xfloat32.toFloat { data := x }) = x := by
  unfold isFiniteBits at hfin
  rw [expField_eq] at hfin
  rw [and_3fff] at hred
  simp only [Nat.reducePow] at hx
  unfold Tensile.XFloat32.XFloat32_to_float tensile_xfloat32.toFloat
  dsimp only
  rw [float_to_XFloat32_arith, if_neg (fun h => hfin h.1), float_to_xfloat32_finite x hfin]
  have hsplit : x = x / 2147483648 % 2 * 2147483648 + x % 2147483648 := by omega
  have hm : x % 2147483648 % 16384 = 0 := by omega
  constructor
  · omega
  · generalize x % 2147483648 = m at *
    generalize x / 2147483648 % 2 = s at *
    omega

/-- C6 at `1.0f = 0x3F800000`, which round-trips to exactly `0x3F800000`. -/
theorem narrowing_idempotent_witness :
    0x3F800000 < 2 ^ 32 ∧ 0x3F800000 &&& 0x3FFF = 0 ∧ isFiniteBits 0x3F800000 ∧
      ((Tensile.XFloat32.float_to_XFloat32
          (Tensile.XFloat32.XFloat32_to_float { data := 0x3F800000 })).data = 0x3F800000 ∧
        tensile_xfloat32.float_to_xfloat32
          (tensile_xfloat32.toFloat { data := 0x3F800000 }) = 0x3F800000) :=
  ⟨by decide, by decide, by decide,
    narrowing_idempotent 0x3F800000 (by decide) (by decide) (by decide)⟩

/-- C7: in both variants the narrowed value is a NaN pattern if and only if the input
is a NaN, and an infinite input (`0x7F800000` or `0xFF800000`) is stored unchanged. -/
theorem special_value_propagation (f : Nat) (hf : f < 2 ^ 32) :
    (std_isnan (Tensile.XFloat32.float_to_XFloat32 f).data = true ↔ std_isnan f = true) ∧
      (std_isnan (tensile_xfloat32.ofFloat f).data = true ↔ std_isnan f = true) ∧
      (std_isinf f = true →
        (f = 0x7F800000 ∨ f = 0xFF800000) ∧
          (Tensile.XFloat32.float_to_XFloat32 f).data = f ∧
          (tensile_xfloat32.ofFloat f).data = f) := by
  have hdata : (tensile_xfloat32.ofFloat f).data = tensile_xfloat32.float_to_xfloat32 f := rfl
  simp only [Nat.reducePow] at hf
  simp only [hdata, std_isnan_arith, std_isinf_arith]
  refine ⟨?_, ?_, ?_⟩
  · rw [float_to_XFloat32_arith]
    split <;> omega
  · by_cases hexp : f / 8388608 % 256 = 255
    · rw [float_to_xfloat32_arith, if_pos hexp]
      split <;> omega
    · have hle := float_to_xfloat32_finite_le f hexp
      rw [nan_iff_magnitude]
      omega
  · intro hinf
    rw [float_to_XFloat32_arith, float_to_xfloat32_arith, if_pos hinf.1,
      if_pos (show f % 16384 = 0 by omega), if_neg (by omega)]
    omega

/-- C7 at negative infinity `0xFF800000`. -/
theorem special_value_propagation_witness :
    0xFF800000 < 2 ^ 32 ∧
      ((std_isnan (Tensile.XFloat32.float_to_XFloat32 0xFF800000).data = true
          ↔ std_isnan 0xFF800000 = true) ∧
        (std_isnan (tensile_xfloat32.ofFloat 0xFF800000).data = true
          ↔ std_isnan 0xFF800000 = true) ∧
        (std_isinf 0xFF800000 = true →
          (0xFF800000 = 0x7F800000 ∨ 0xFF800000 = 0xFF800000) ∧
            (Tensile.XFloat32.float_to_XFloat32 0xFF800000).data = 0xFF800000 ∧
            (tensile_xfloat32.ofFloat 0xFF800000).data = 0xFF800000)) :=
  ⟨by decide, special_value_propagation 0xFF800000 (by decide)⟩

/-- C8, as stated, fails: with `data = 0x00000001` both `iszero` functions return
true although the pattern is neither `0x00000000` nor `0x80000000`. -/
theorem iszero_nonzero_pattern :
    ¬ (Tensile.XFloat32.iszero { data := 0x00000001 } = true ↔
        ((0x00000001 : Nat) = 0x00000000 ∨ (0x00000001 : Nat) = 0x80000000)) ∧
      ¬ (tensile_xfloat32.iszero { data := 0x00000001 } = true ↔
        ((0x00000001 : Nat) = 0x00000000 ∨ (0x00000001 : Nat) = 0x80000000)) := by
  decide

/-- C8, amended: in both variants `iszero` ignores the low 14 bits: it returns true if
and only if the data with its low 14 bits cleared is `0x00000000` or `0x80000000`; hence
for a value whose low 14 bits are zero it returns true if and only if the data is the
`+0` pattern `0x00000000` or the `-0` pattern `0x80000000`. -/
theorem iszero_iff_reduced_zero (x : Nat) (hx : x < 2 ^ 32) :
    (Tensile.XFloat32.iszero { data := x } = true ↔
        (x &&& 0xFFFFC000 = 0x00000000 ∨ x &&& 0xFFFFC000 = 0x80000000)) ∧
      (tensile_xfloat32.iszero { data := x } = true ↔
        (x &&& 0xFFFFC000 = 0x00000000 ∨ x &&& 0xFFFFC000 = 0x80000000)) ∧
      (x &&& 0x3FFF = 0 →
        (Tensile.XFloat32.iszero { data := x } = true ↔
            (x = 0x00000000 ∨ x = 0x80000000)) ∧
          (tensile_xfloat32.iszero { data := x } = true ↔
            (x = 0x00000000 ∨ x = 0x80000000))) := by
  unfold Tensile.XFloat32.iszero tensile_xfloat32.iszero
  simp only [Nat.reducePow] at hx
  simp only [beq_iff_eq, bne_iff_ne, ne_eq, Bool.not_eq_true', Bool.not_eq_eq_eq_not,
    Bool.not_true, bne_eq_false_iff_eq, and_7fffc000, and_ffffc000, and_3fff]
  refine ⟨?_, ?_, ?_⟩
  · omega
  · omega
  · intro h
    constructor <;> omega

/-- C8 amended, at the `-0` pattern `0x80000000`. -/
theorem iszero_iff_reduced_zero_witness :
    0x80000000 < 2 ^ 32 ∧
      ((Tensile.XFloat32.iszero { data := 0x80000000 } = true ↔
          (0x80000000 &&& 0xFFFFC000 = 0x00000000 ∨ 0x80000000 &&& 0xFFFFC000 = 0x80000000)) ∧
        (tensile_xfloat32.iszero { data := 0x80000000 } = true ↔
          (0x80000000 &&& 0xFFFFC000 = 0x00000000 ∨ 0x80000000 &&& 0xFFFFC000 = 0x80000000)) ∧
        (0x80000000 &&& 0x3FFF = 0 →
          (Tensile.XFloat32.iszero { data := 0x80000000 } = true ↔
              (0x80000000 = 0x00000000 ∨ 0x80000000 = 0x80000000)) ∧
            (tensile_xfloat32.iszero { data := 0x80000000 } = true ↔
              (0x80000000 = 0x00000000 ∨ 0x80000000 = 0x80000000)))) :=
  ⟨by decide, iszero_iff_reduced_zero 0x80000000 (by decide)⟩

/-- C9: the maximal finite float32 `0x7F7FFFFF` (exponent `0xFE`, mantissa `0x7FFFFF`)
is rounded to `0x7F800000` (exponent `0xFF`, mantissa 0, positive infinity); and a finite
input rounds to an infinity if and only if its exponent field is `0xFE` and its mantissa
is at least `0x7FE000`, the result then being the infinity of the same sign. -/
theorem exponent_overflow (b : Nat) (hfin : isFiniteBits b) :
    (expField 0x7F7FFFFF = 0xFE ∧ mantissa 0x7F7FFFFF = 0x7FFFFF ∧
        tensile_xfloat32.float_to_xfloat32 0x7F7FFFFF = 0x7F800000 ∧
        expField 0x7F800000 = 0xFF ∧ mantissa 0x7F800000 = 0) ∧
      (std_isinf (tensile_xfloat32.float_to_xfloat32 b) = true ↔
        expField b = 0xFE ∧ 0x7FE000 ≤ mantissa b) ∧
      (std_isinf (tensile_xfloat32.float_to_xfloat32 b) = true →
        signBit (tensile_xfloat32.float_to_xfloat32 b) = signBit b ∧
          tensile_xfloat32.float_to_xfloat32 b = signBit b + 0x7F800000) := by
  unfold isFiniteBits at hfin
  rw [expField_eq] at hfin
  obtain ⟨hmag, hsgn⟩ := float_to_xfloat32_finite_fields b hfin
  have hm := magnitude_lt_of_finite b hfin
  have hval := float_to_xfloat32_finite b hfin
  refine ⟨by decide, ?_, ?_⟩
  · rw [std_isinf_arith, inf_iff_magnitude, hmag, expField_eq, mantissa_eq]
    have hexp : b / 8388608 % 256 = b % 2147483648 / 8388608 := by omega
    have hman : b % 8388608 = b % 2147483648 % 8388608 := by omega
    rw [hexp, hman]
    generalize b % 2147483648 = m at *
    omega
  · rw [std_isinf_arith, inf_iff_magnitude, hmag, signBit_eq, signBit_eq, hsgn, hval]
    intro h
    rw [h]
    simp

/-- C9 at `0x7F7FE000`, the smallest positive finite pattern that rounds to infinity. -/
theorem exponent_overflow_witness :
    isFiniteBits 0x7F7FE000 ∧
      ((expField 0x7F7FFFFF = 0xFE ∧ mantissa 0x7F7FFFFF = 0x7FFFFF ∧
          tensile_xfloat32.float_to_xfloat32 0x7F7FFFFF = 0x7F800000 ∧
          expField 0x7F800000 = 0xFF ∧ mantissa 0x7F800000 = 0) ∧
        (std_isinf (tensile_xfloat32.float_to_xfloat32 0x7F7FE000) = true ↔
          expField 0x7F7FE000 = 0xFE ∧ 0x7FE000 ≤ mantissa 0x7F7FE000) ∧
        (std_isinf (tensile_xfloat32.float_to_xfloat32 0x7F7FE000) = true →
          signBit (tensile_xfloat32.float_to_xfloat32 0x7F7FE000) = signBit 0x7F7FE000 ∧
            tensile_xfloat32.float_to_xfloat32 0x7F7FE000 = signBit 0x7F7FE000 + 0x7F800000)) :=
  ⟨by decide, exponent_overflow 0x7F7FE000 (by decide)⟩

/-- C10: unary minus of the rounding variant flips the sign bit and nothing else:
`(-a).data = a.data ^ 0x80000000`, the other 31 bits are unchanged, negating twice gives
back `a`, low 14 bits that are zero stay zero, and `iszero`, `isinf` and `isnan` give the
same answer on `a` and on `-a`. -/
theorem neg_flips_sign_only (a : tensile_xfloat32) :
    (tensile_xfloat32.neg a).data = a.data ^^^ 0x80000000 ∧
      signBit (tensile_xfloat32.neg a).data = signBit a.data ^^^ 0x80000000 ∧
      (tensile_xfloat32.neg a).data &&& 0x7FFFFFFF = a.data &&& 0x7FFFFFFF ∧
      tensile_xfloat32.neg (tensile_xfloat32.neg a) = a ∧
      (a.data &&& 0x3FFF = 0 → (tensile_xfloat32.neg a).data &&& 0x3FFF = 0) ∧
      tensile_xfloat32.iszero (tensile_xfloat32.neg a) = tensile_xfloat32.iszero a ∧
      tensile_xfloat32.isinf (tensile_xfloat32.neg a) = tensile_xfloat32.isinf a ∧
      tensile_xfloat32.isnan (tensile_xfloat32.neg a) = tensile_xfloat32.isnan a := by
  have hmask : ∀ m : Nat, 0x80000000 &&& m = 0 →
      (a.data ^^^ 0x80000000) &&& m = a.data &&& m := by
    intro m hm
    rw [Nat.and_xor_distrib_right, hm, Nat.xor_zero]
  have hnot : ∀ m : Nat, 0x80000000 &&& m = 0 →
      not32 (a.data ^^^ 0x80000000) &&& m = not32 a.data &&& m := by
    intro m hm
    unfold not32
    rw [Nat.and_xor_distrib_right, Nat.and_xor_distrib_right, Nat.and_xor_distrib_right, hm,
      Nat.xor_zero]
  refine ⟨rfl, ?_, ?_, ?_, ?_, ?_, ?_, ?_⟩
  · unfold signBit tensile_xfloat32.neg
    rw [Nat.and_xor_distrib_right, Nat.and_self]
  · exact hmask _ (by decide)
  · cases a with
    | mk d =>
      unfold tensile_xfloat32.neg
      simp only [Nat.xor_assoc, Nat.xor_self, Nat.xor_zero]
  · intro h
    unfold tensile_xfloat32.neg
    rw [hmask _ (by decide)]
    exact h
  · unfold tensile_xfloat32.iszero tensile_xfloat32.neg
    rw [hmask _ (by decide)]
  · unfold tensile_xfloat32.isinf tensile_xfloat32.neg
    rw [hmask _ (by decide), hnot _ (by decide)]
  · unfold tensile_xfloat32.isnan tensile_xfloat32.neg
    rw [hmask _ (by decide), hnot _ (by decide)]

/-! ## Comparisons, decision table and further properties of the conversions -/

/-- The sort key of IEEE order, with sign and magnitude read as quotient and remainder. -/
theorem orderKey_arith (x : Nat) :
    orderKey x =
      if x / 2147483648 % 2 = 0 then ((x % 2147483648 : Nat) : Int)
      else -((x % 2147483648 : Nat) : Int) := by
  unfold orderKey
  rw [signBit_eq, magnitude_eq]
  by_cases h : x / 2147483648 % 2 = 0
  · rw [if_pos h, if_pos (by omega)]
  · rw [if_neg h, if_neg (by omega)]

/-- C11: in the truncating variant every NaN narrows to the value `n` with data
`0xFFC10000`, for which `n < n`, `n > n` and `n == n` are false and `n != n` is true; and
for all `a`, `b` of which one widens to a NaN, `a < b`, `a <= b`, `a > b`, `a >= b` and
`a == b` are false and `a != b` is true. -/
theorem nan_compares_unordered (f : Nat) (a b : Tensile.XFloat32) (hf : std_isnan f = true)
    (hab : std_isnan (Tensile.XFloat32.toFloat a) = true
      ∨ std_isnan (Tensile.XFloat32.toFloat b) = true) :
    (Tensile.XFloat32.ofFloat f = { data := 0xFFC10000 } ∧
        Tensile.XFloat32.lt (Tensile.XFloat32.ofFloat f) (Tensile.XFloat32.ofFloat f) = false ∧
        Tensile.XFloat32.gt (Tensile.XFloat32.ofFloat f) (Tensile.XFloat32.ofFloat f) = false ∧
        Tensile.XFloat32.eq (Tensile.XFloat32.ofFloat f) (Tensile.XFloat32.ofFloat f) = false ∧
        Tensile.XFloat32.ne (Tensile.XFloat32.ofFloat f) (Tensile.XFloat32.ofFloat f) = true) ∧
      (Tensile.XFloat32.lt a b = false ∧ Tensile.XFloat32.le a b = false ∧
        Tensile.XFloat32.gt a b = false ∧ Tensile.XFloat32.ge a b = false ∧
        Tensile.XFloat32.eq a b = false ∧ Tensile.XFloat32.ne a b = true) := by
  have hn : Tensile.XFloat32.ofFloat f = { data := 0xFFC10000 } := by
    unfold Tensile.XFloat32.ofFloat Tensile.XFloat32.float_to_XFloat32
    rw [if_pos hf]
    rfl
  constructor
  · rw [hn]
    exact ⟨rfl, by decide, by decide, by decide, by decide⟩
  · unfold Tensile.XFloat32.lt Tensile.XFloat32.le Tensile.XFloat32.gt Tensile.XFloat32.ge
      Tensile.XFloat32.eq Tensile.XFloat32.ne float_ne float_lt float_le float_gt float_ge
      float_eq
    rcases hab with h | h <;> simp [h]

/-- C11 at the NaN `0x7FC00000`, with `a` the canonical NaN and `b` the value `1.0f`. -/
theorem nan_compares_unordered_witness :
    std_isnan 0x7FC00000 = true ∧
      (std_isnan (Tensile.XFloat32.toFloat { data := 0xFFC10000 }) = true
        ∨ std_isnan (Tensile.XFloat32.toFloat { data := 0x3F800000 }) = true) ∧
      ((Tensile.XFloat32.ofFloat 0x7FC00000 = { data := 0xFFC10000 } ∧
          Tensile.XFloat32.lt (Tensile.XFloat32.ofFloat 0x7FC00000)
            (Tensile.XFloat32.ofFloat 0x7FC00000) = false ∧
          Tensile.XFloat32.gt (Tensile.XFloat32.ofFloat 0x7FC00000)
            (Tensile.XFloat32.ofFloat 0x7FC00000) = false ∧
          Tensile.XFloat32.eq (Tensile.XFloat32.ofFloat 0x7FC00000)
            (Tensile.XFloat32.ofFloat 0x7FC00000) = false ∧
          Tensile.XFloat32.ne (Tensile.XFloat32.ofFloat 0x7FC00000)
            (Tensile.XFloat32.ofFloat 0x7FC00000) = true) ∧
        (Tensile.XFloat32.lt { data := 0xFFC10000 } { data := 0x3F800000 } = false ∧
          Tensile.XFloat32.le { data := 0xFFC10000 } { data := 0x3F800000 } = false ∧
          Tensile.XFloat32.gt { data := 0xFFC10000 } { data := 0x3F800000 } = false ∧
          Tensile.XFloat32.ge { data := 0xFFC10000 } { data := 0x3F800000 } = false ∧
          Tensile.XFloat32.eq { data := 0xFFC10000 } { data := 0x3F800000 } = false ∧
          Tensile.XFloat32.ne { data := 0xFFC10000 } { data := 0x3F800000 } = true)) :=
  ⟨by decide, Or.inl (by decide),
    nan_compares_unordered 0x7FC00000 { data := 0xFFC10000 } { data := 0x3F800000 }
      (by decide) (Or.inl (by decide))⟩

/-- C12: in the rounding variant `<`, `==`, `!=` and `>` agree with the float32
comparison of the widened operands for all operands, and so do `<=` and `>=` when
neither operand is a NaN; but for `a` the NaN `0x7FC00000` and `b = 1.0f` the operators
`a <= b` and `a >= b` return true where the float32 comparisons are false. -/
theorem le_ge_differ_on_nan :
    (∀ a b : tensile_xfloat32,
        tensile_xfloat32.lt a b
            = float_lt (tensile_xfloat32.toFloat a) (tensile_xfloat32.toFloat b) ∧
          tensile_xfloat32.eq a b
            = float_eq (tensile_xfloat32.toFloat a) (tensile_xfloat32.toFloat b) ∧
          tensile_xfloat32.ne a b
            = float_ne (tensile_xfloat32.toFloat a) (tensile_xfloat32.toFloat b) ∧
          tensile_xfloat32.gt a b
            = float_gt (tensile_xfloat32.toFloat a) (tensile_xfloat32.toFloat b) ∧
          (std_isnan (tensile_xfloat32.toFloat a) = false →
            std_isnan (tensile_xfloat32.toFloat b) = false →
            tensile_xfloat32.le a b
                = float_le (tensile_xfloat32.toFloat a) (tensile_xfloat32.toFloat b) ∧
              tensile_xfloat32.ge a b
                = float_ge (tensile_xfloat32.toFloat a) (tensile_xfloat32.toFloat b))) ∧
      std_isnan (tensile_xfloat32.toFloat { data := 0x7FC00000 }) = true ∧
      tensile_xfloat32.le { data := 0x7FC00000 } { data := 0x3F800000 } = true ∧
      float_le (tensile_xfloat32.toFloat { data := 0x7FC00000 })
        (tensile_xfloat32.toFloat { data := 0x3F800000 }) = false ∧
      tensile_xfloat32.ge { data := 0x7FC00000 } { data := 0x3F800000 } = true ∧
      float_ge (tensile_xfloat32.toFloat { data := 0x7FC00000 })
        (tensile_xfloat32.toFloat { data := 0x3F800000 }) = false := by
  refine ⟨?_, by decide, by decide, by decide, by decide, by decide⟩
  intro a b
  unfold tensile_xfloat32.le tensile_xfloat32.ge tensile_xfloat32.gt tensile_xfloat32.ne
    tensile_xfloat32.lt tensile_xfloat32.eq float_ne float_lt float_le float_gt float_ge
    float_eq
  refine ⟨rfl, rfl, rfl, ?_, ?_⟩
  · cases std_isnan (tensile_xfloat32.toFloat a) <;>
      cases std_isnan (tensile_xfloat32.toFloat b) <;> simp
  · intro ha hb
    have hflip : ∀ p q : Int, (!decide (q < p)) = decide (p ≤ q) := by
      intro p q
      by_cases h : q < p
      · simp [h, not_le.mpr h]
      · simp [h, not_lt.mp h]
    rw [ha, hb]
    simp only [Bool.not_false, Bool.true_and, ge_iff_le]
    exact ⟨hflip _ _, hflip _ _⟩

/-- C13: in the rounding variant `isinf(x)` holds iff the exponent field is all ones and
`x.data & 0x7FC000` is zero, `isnan(x)` holds iff the exponent field is all ones and
`x.data & 0x7FC000` is nonzero, the two never hold together, and for `x` with low 14
bits zero they agree with the IEEE-754 classification of `float(x)`. -/
theorem isinf_isnan_fields (x : tensile_xfloat32) :
    (tensile_xfloat32.isinf x = true ↔ expField x.data = 0xFF ∧ x.data &&& 0x7FC000 = 0) ∧
      (tensile_xfloat32.isnan x = true ↔ expField x.data = 0xFF ∧ x.data &&& 0x7FC000 ≠ 0) ∧
      ¬ (tensile_xfloat32.isinf x = true ∧ tensile_xfloat32.isnan x = true) ∧
      (x.data &&& 0x3FFF = 0 →
        tensile_xfloat32.isinf x = std_isinf (tensile_xfloat32.toFloat x) ∧
          tensile_xfloat32.isnan x = std_isnan (tensile_xfloat32.toFloat x)) := by
  have hinf : tensile_xfloat32.isinf x = true
      ↔ x.data / 8388608 % 256 = 255 ∧ x.data / 16384 % 512 * 16384 = 0 := by
    unfold tensile_xfloat32.isinf
    simp [not32_and_exp, and_7fc000]
  have hnan : tensile_xfloat32.isnan x = true
      ↔ x.data / 8388608 % 256 = 255 ∧ x.data / 16384 % 512 * 16384 ≠ 0 := by
    unfold tensile_xfloat32.isnan
    simp [not32_and_exp, and_7fc000]
  refine ⟨?_, ?_, ?_, ?_⟩
  · rw [hinf, expField_eq, and_7fc000]
  · rw [hnan, expField_eq, and_7fc000]
  · rw [hinf, hnan]
    omega
  · intro hlow
    rw [and_3fff] at hlow
    unfold tensile_xfloat32.toFloat
    constructor
    · rw [Bool.eq_iff_iff, hinf, std_isinf_arith]
      omega
    · rw [Bool.eq_iff_iff, hnan, std_isnan_arith]
      omega

/-- C14, as stated, fails: the quiet NaN `0x7FC00001` (bit 22 set) is not passed
through as `0x7FC00001 & 0xFFFFC000 = 0x7FC00000`; the guard bit is forced and the
result is `0x7FC04000`. -/
theorem quiet_nan_guard_forced :
    std_isnan 0x7FC00001 = true ∧ 0x7FC00001 &&& 0x400000 = 0x400000 ∧
      tensile_xfloat32.float_to_xfloat32 0x7FC00001 = 0x7FC04000 ∧
      tensile_xfloat32.float_to_xfloat32 0x7FC00001 ≠ 0x7FC00001 &&& 0xFFFFC000 := by
  decide

/-- C14, amended: for every NaN `b`, quiet or signaling, the rounding conversion gives
a NaN with bit 22 of `b`, so a quiet NaN stays quiet and a signaling NaN stays signaling;
when the low 14 bits of `b` are zero it is passed through as `b & 0xFFFFC000` with no
guard bit forced, and when one of its low 14 bits is set the guard bit is forced, for a
quiet NaN as for a signaling one, the result being `(b & 0xFFFFC000) | 0x4000`. -/
theorem nan_rows_guard_bit (b : Nat) (hnan : std_isnan b = true) :
    (b &&& 0x3FFF = 0 →
        tensile_xfloat32.float_to_xfloat32 b = b &&& 0xFFFFC000 ∧
          tensile_xfloat32.float_to_xfloat32 b &&& 0x4000 = b &&& 0x4000) ∧
      (b &&& 0x3FFF ≠ 0 →
        tensile_xfloat32.float_to_xfloat32 b = (b &&& 0xFFFFC000) ||| 0x4000 ∧
          tensile_xfloat32.float_to_xfloat32 b &&& 0x4000 = 0x4000) ∧
      std_isnan (tensile_xfloat32.float_to_xfloat32 b) = true ∧
      tensile_xfloat32.float_to_xfloat32 b &&& 0x400000 = b &&& 0x400000 ∧
      (b &&& 0x400000 = 0x400000 →
        tensile_xfloat32.float_to_xfloat32 b &&& 0x400000 = 0x400000) ∧
      (b &&& 0x400000 = 0 →
        tensile_xfloat32.float_to_xfloat32 b &&& 0x400000 = 0) := by
  obtain ⟨hexp, hman⟩ := (std_isnan_arith b).1 hnan
  rw [float_to_xfloat32_arith, if_pos hexp]
  simp only [and_3fff, and_ffffc000, and_4000, and_400000, or_4000, std_isnan_arith]
  by_cases hlow : b % 16384 = 0
  · rw [if_pos hlow]
    refine ⟨fun _ => ⟨rfl, ?_⟩, fun h => absurd hlow h, ⟨?_, ?_⟩, ?_, ?_, ?_⟩ <;> omega
  · rw [if_neg hlow]
    refine ⟨fun h => absurd h hlow, fun _ => ⟨?_, ?_⟩, ⟨?_, ?_⟩, ?_, ?_, ?_⟩ <;> omega

/-- C14 amended, at the quiet NaN `0x7FC00001`, which goes to `0x7FC04000`. -/
theorem nan_rows_guard_bit_witness :
    std_isnan 0x7FC00001 = true ∧
      ((0x7FC00001 &&& 0x3FFF = 0 →
          tensile_xfloat32.float_to_xfloat32 0x7FC00001 = 0x7FC00001 &&& 0xFFFFC000 ∧
            tensile_xfloat32.float_to_xfloat32 0x7FC00001 &&& 0x4000
              = 0x7FC00001 &&& 0x4000) ∧
        (0x7FC00001 &&& 0x3FFF ≠ 0 →
          tensile_xfloat32.float_to_xfloat32 0x7FC00001
              = (0x7FC00001 &&& 0xFFFFC000) ||| 0x4000 ∧
            tensile_xfloat32.float_to_xfloat32 0x7FC00001 &&& 0x4000 = 0x4000) ∧
        std_isnan (tensile_xfloat32.float_to_xfloat32 0x7FC00001) = true ∧
        tensile_xfloat32.float_to_xfloat32 0x7FC00001 &&& 0x400000
          = 0x7FC00001 &&& 0x400000 ∧
        (0x7FC00001 &&& 0x400000 = 0x400000 →
          tensile_xfloat32.float_to_xfloat32 0x7FC00001 &&& 0x400000 = 0x400000) ∧
        (0x7FC00001 &&& 0x400000 = 0 →
          tensile_xfloat32.float_to_xfloat32 0x7FC00001 &&& 0x400000 = 0)) :=
  ⟨by decide, nan_rows_guard_bit 0x7FC00001 (by decide)⟩

/-- The retained bits of a pattern: sign bit plus magnitude with the low 14 bits cleared. -/
theorem retained_fields (b : Nat) :
    b / 16384 % 262144 * 16384
      = b / 2147483648 % 2 * 2147483648 + b % 2147483648 / 16384 * 16384 := by
  omega

/-- C15: for a pattern `b` with exponent field not all ones, with `t = b & 0xFFFFC000`
and `low = b & 0x3FFF`, the rounding conversion returns `t + 0x4000` (a plain integer
addition that stays below `2 ^ 32`) if `low > 0x2000`, or if `low = 0x2000` and bit 14 of
`b` is 1; otherwise it returns `t`. -/
theorem rounding_decision_rule (b : Nat) (hfin : isFiniteBits b) :
    tensile_xfloat32.float_to_xfloat32 b =
        (if 0x2000 < b &&& 0x3FFF ∨ (b &&& 0x3FFF = 0x2000 ∧ b &&& 0x4000 = 0x4000) then
          (b &&& 0xFFFFC000) + 0x4000
        else b &&& 0xFFFFC000) ∧
      (b &&& 0xFFFFC000) + 0x4000 < 2 ^ 32 := by
  unfold isFiniteBits at hfin
  rw [expField_eq] at hfin
  have hm := magnitude_lt_of_finite b hfin
  have hs : b / 2147483648 % 2 < 2 := Nat.mod_lt _ (by decide)
  have hlow : b % 16384 = b % 2147483648 % 16384 := by omega
  have hbit : b / 16384 % 2 = b % 2147483648 / 16384 % 2 := by omega
  rw [float_to_xfloat32_finite b hfin]
  simp only [and_3fff, and_ffffc000, and_4000, Nat.reducePow]
  rw [retained_fields b, hlow, hbit]
  generalize b % 2147483648 = m at *
  generalize b / 2147483648 % 2 = s at *
  constructor
  · split <;> omega
  · omega

/-- C15 at `0x3F806000`, a tie above an odd neighbour, which rounds up to `0x3F808000`. -/
theorem rounding_decision_rule_witness :
    isFiniteBits 0x3F806000 ∧
      (tensile_xfloat32.float_to_xfloat32 0x3F806000 =
          (if 0x2000 < 0x3F806000 &&& 0x3FFF
              ∨ (0x3F806000 &&& 0x3FFF = 0x2000 ∧ 0x3F806000 &&& 0x4000 = 0x4000) then
            (0x3F806000 &&& 0xFFFFC000) + 0x4000
          else 0x3F806000 &&& 0xFFFFC000) ∧
        (0x3F806000 &&& 0xFFFFC000) + 0x4000 < 2 ^ 32) :=
  ⟨by decide, rounding_decision_rule 0x3F806000 (by decide)⟩

/-- C17: for a 32-bit pattern `b` with exponent field not all ones, the rounding addition
`b + 0x1FFF + ((b >> 14) & 1)` stays at most `2 ^ 32 - 1` and keeps the sign bit; the
result of the conversion has the sign bit of `b` and a magnitude of at most `0x7F800000`,
so it is finite or an infinity and never a NaN. -/
theorem rounding_add_no_wrap (b : Nat) (hb : b < 2 ^ 32) (hfin : isFiniteBits b) :
    b + 0x1FFF + ((b >>> 14) &&& 1) ≤ 2 ^ 32 - 1 ∧
      signBit (b + 0x1FFF + ((b >>> 14) &&& 1)) = signBit b ∧
      signBit (tensile_xfloat32.float_to_xfloat32 b) = signBit b ∧
      magnitude (tensile_xfloat32.float_to_xfloat32 b) ≤ 0x7F800000 ∧
      std_isnan (tensile_xfloat32.float_to_xfloat32 b) = false := by
  unfold isFiniteBits at hfin
  rw [expField_eq] at hfin
  simp only [Nat.reducePow] at hb
  have hm := magnitude_lt_of_finite b hfin
  have hk : b / 16384 % 2 < 2 := Nat.mod_lt _ (by decide)
  have hq : (b + 8191 + b / 16384 % 2) / 2147483648 = b / 2147483648 := by
    generalize b / 16384 % 2 = k at *
    omega
  have hsum : b + 8191 + b / 16384 % 2 ≤ 4294967295 := by
    generalize b / 16384 % 2 = k at *
    omega
  obtain ⟨hmag, hsgn⟩ := float_to_xfloat32_finite_fields b hfin
  have hle := float_to_xfloat32_finite_le b hfin
  have hnan : ¬ std_isnan (tensile_xfloat32.float_to_xfloat32 b) = true := by
    rw [std_isnan_arith, nan_iff_magnitude]
    omega
  simp only [signBit_eq, magnitude_eq, shr_14, and_one_bit, hsgn, hq, Nat.reducePow]
  exact ⟨by omega, trivial, trivial, hle, by simpa using hnan⟩

/-- C17 at the maximal finite pattern with sign, `0xFF7FFFFF`. -/
theorem rounding_add_no_wrap_witness :
    0xFF7FFFFF < 2 ^ 32 ∧ isFiniteBits 0xFF7FFFFF ∧
      (0xFF7FFFFF + 0x1FFF + ((0xFF7FFFFF >>> 14) &&& 1) ≤ 2 ^ 32 - 1 ∧
        signBit (0xFF7FFFFF + 0x1FFF + ((0xFF7FFFFF >>> 14) &&& 1)) = signBit 0xFF7FFFFF ∧
        signBit (tensile_xfloat32.float_to_xfloat32 0xFF7FFFFF) = signBit 0xFF7FFFFF ∧
        magnitude (tensile_xfloat32.float_to_xfloat32 0xFF7FFFFF) ≤ 0x7F800000 ∧
        std_isnan (tensile_xfloat32.float_to_xfloat32 0xFF7FFFFF) = false) :=
  ⟨by decide, by decide, rounding_add_no_wrap 0xFF7FFFFF (by decide) (by decide)⟩

/-- The rounded magnitude is monotone in the magnitude. -/
theorem round_magnitude_mono (m1 m2 : Nat) (h : m1 ≤ m2) :
    (m1 + (8191 + m1 / 16384 % 2)) / 16384 * 16384
      ≤ (m2 + (8191 + m2 / 16384 % 2)) / 16384 * 16384 := by
  by_cases hq : m1 / 16384 = m2 / 16384
  · rw [hq]
    omega
  · have h1 : (m1 + (8191 + m1 / 16384 % 2)) / 16384 ≤ m1 / 16384 + 1 := by omega
    have h2 : m2 / 16384 ≤ (m2 + (8191 + m2 / 16384 % 2)) / 16384 := by omega
    have h3 : m1 / 16384 + 1 ≤ m2 / 16384 := by omega
    omega

/-- C18: for patterns `b1`, `b2` with the same sign bit and the magnitude of `b1` at
most that of `b2`, the rounding conversion keeps the order of magnitudes when both
exponent fields are not all ones, and the truncating conversion keeps it when neither
input is a NaN.  Magnitudes do not involve the sign bit, so the premise on the signs is
not needed by the proof. -/
theorem conversions_monotone (b1 b2 : Nat) (_hs : signBit b1 = signBit b2)
    (hle : magnitude b1 ≤ magnitude b2) :
    (isFiniteBits b1 → isFiniteBits b2 →
        magnitude (tensile_xfloat32.float_to_xfloat32 b1)
          ≤ magnitude (tensile_xfloat32.float_to_xfloat32 b2)) ∧
      (std_isnan b1 = false → std_isnan b2 = false →
        magnitude (Tensile.XFloat32.float_to_XFloat32 b1).data
          ≤ magnitude (Tensile.XFloat32.float_to_XFloat32 b2).data) := by
  rw [magnitude_eq, magnitude_eq] at hle
  constructor
  · intro h1 h2
    unfold isFiniteBits at h1 h2
    rw [expField_eq] at h1 h2
    rw [magnitude_eq, magnitude_eq, (float_to_xfloat32_finite_fields b1 h1).1,
      (float_to_xfloat32_finite_fields b2 h2).1]
    exact round_magnitude_mono _ _ hle
  · intro h1 h2
    have hn1 : ¬ (b1 / 8388608 % 256 = 255 ∧ b1 % 8388608 ≠ 0) := by
      rw [← std_isnan_arith, h1]
      simp
    have hn2 : ¬ (b2 / 8388608 % 256 = 255 ∧ b2 % 8388608 ≠ 0) := by
      rw [← std_isnan_arith, h2]
      simp
    rw [magnitude_eq, magnitude_eq, float_to_XFloat32_arith, float_to_XFloat32_arith,
      if_neg hn1, if_neg hn2]
    have e1 : b1 / 16384 % 262144 * 16384 % 2147483648 = b1 % 2147483648 / 16384 * 16384 := by
      omega
    have e2 : b2 / 16384 % 262144 * 16384 % 2147483648 = b2 % 2147483648 / 16384 * 16384 := by
      omega
    rw [e1, e2]
    generalize b1 % 2147483648 = m1 at *
    generalize b2 % 2147483648 = m2 at *
    omega

/-- C18 at `0x3F801FFF ≤ 0x3F802001`, which straddle a tie: they round to `0x3F800000`
and `0x3F804000`. -/
theorem conversions_monotone_witness :
    signBit 0x3F801FFF = signBit 0x3F802001 ∧
      magnitude 0x3F801FFF ≤ magnitude 0x3F802001 ∧
      isFiniteBits 0x3F801FFF ∧ isFiniteBits 0x3F802001 ∧
      std_isnan 0x3F801FFF = false ∧ std_isnan 0x3F802001 = false ∧
      ((isFiniteBits 0x3F801FFF → isFiniteBits 0x3F802001 →
          magnitude (tensile_xfloat32.float_to_xfloat32 0x3F801FFF)
            ≤ magnitude (tensile_xfloat32.float_to_xfloat32 0x3F802001)) ∧
        (std_isnan 0x3F801FFF = false → std_isnan 0x3F802001 = false →
          magnitude (Tensile.XFloat32.float_to_XFloat32 0x3F801FFF).data
            ≤ magnitude (Tensile.XFloat32.float_to_XFloat32 0x3F802001).data)) :=
  ⟨by decide, by decide, by decide, by decide, by decide, by decide,
    conversions_monotone 0x3F801FFF 0x3F802001 (by decide) (by decide)⟩

/-- Flipping the sign bit of a 32-bit pattern, field by field. -/
theorem xor_sign_fields (b : Nat) (hb : b < 4294967296) :
    (b ^^^ 0x80000000) % 2147483648 = b % 2147483648 ∧
      (b ^^^ 0x80000000) / 2147483648 % 2 = 1 - b / 2147483648 % 2 ∧
      b ^^^ 0x80000000 < 4294967296 := by
  rw [xor_80000000]
  have hs : b / 2147483648 % 2 < 2 := Nat.mod_lt _ (by decide)
  have h0 : b / 4294967296 = 0 := by omega
  have hm : b % 2147483648 < 2147483648 := Nat.mod_lt _ (by decide)
  rw [h0]
  generalize b / 2147483648 % 2 = s at *
  generalize b % 2147483648 = m at *
  have hcases : s = 0 ∨ s = 1 := by omega
  rcases hcases with rfl | rfl <;> simp <;> omega

/-- The rounding conversion acts on the magnitude and carries the sign bit along. -/
theorem float_to_xfloat32_sign_split (b : Nat) :
    tensile_xfloat32.float_to_xfloat32 b
        = b / 2147483648 % 2 * 2147483648
          + tensile_xfloat32.float_to_xfloat32 (b % 2147483648) ∧
      tensile_xfloat32.float_to_xfloat32 (b % 2147483648) < 2147483648 := by
  have hexp : b % 2147483648 / 8388608 % 256 = b / 8388608 % 256 := by omega
  have hlow : b % 2147483648 % 16384 = b % 16384 := by omega
  have hm : b % 2147483648 < 2147483648 := Nat.mod_lt _ (by decide)
  by_cases hfin : b / 8388608 % 256 = 255
  · rw [float_to_xfloat32_arith b, float_to_xfloat32_arith (b % 2147483648), hexp, hlow,
      if_pos hfin, if_pos hfin]
    by_cases hl : b % 16384 = 0
    · rw [if_pos hl, if_pos hl]
      constructor <;> omega
    · rw [if_neg hl, if_neg hl]
      have e1 : (32768 * (b / 32768) + (16384 + b % 16384)) / 16384
          = b / 32768 * 2 + 1 := by omega
      have e2 : (32768 * (b % 2147483648 / 32768) + (16384 + b % 16384)) / 16384
          = b % 2147483648 / 32768 * 2 + 1 := by omega
      rw [e1, e2]
      constructor <;> omega
  · have hfin2 : b % 2147483648 / 8388608 % 256 ≠ 255 := by omega
    have hle := float_to_xfloat32_finite_le (b % 2147483648) hfin2
    have hmm : b % 2147483648 % 2147483648 = b % 2147483648 := by omega
    have hs0 : b % 2147483648 / 2147483648 % 2 = 0 := by omega
    have h2 := float_to_xfloat32_finite (b % 2147483648) hfin2
    rw [hmm, hs0] at h2
    have hmfin := magnitude_lt_of_finite b hfin
    rw [float_to_xfloat32_finite b hfin, h2]
    generalize b % 2147483648 = m at *
    constructor <;> omega

/-- C19: the rounding conversion commutes with the sign flip for every 32-bit pattern
`b`, so narrowing the negated float is the unary minus of the narrowed value; the
truncating conversion satisfies the same equation when `b` is not a NaN, and fails it
for every NaN, since `b` and its negation both go to `0xFFC10000`. -/
theorem sign_flip_commutes (b : Nat) (hb : b < 2 ^ 32) :
    tensile_xfloat32.float_to_xfloat32 (b ^^^ 0x80000000)
        = tensile_xfloat32.float_to_xfloat32 b ^^^ 0x80000000 ∧
      tensile_xfloat32.ofFloat (b ^^^ 0x80000000)
        = tensile_xfloat32.neg (tensile_xfloat32.ofFloat b) ∧
      (std_isnan b = false →
        (Tensile.XFloat32.float_to_XFloat32 (b ^^^ 0x80000000)).data
          = (Tensile.XFloat32.float_to_XFloat32 b).data ^^^ 0x80000000) ∧
      (std_isnan b = true →
        (Tensile.XFloat32.float_to_XFloat32 (b ^^^ 0x80000000)).data = 0xFFC10000 ∧
          (Tensile.XFloat32.float_to_XFloat32 b).data = 0xFFC10000 ∧
          (Tensile.XFloat32.float_to_XFloat32 (b ^^^ 0x80000000)).data
            ≠ (Tensile.XFloat32.float_to_XFloat32 b).data ^^^ 0x80000000) := by
  simp only [Nat.reducePow] at hb
  obtain ⟨hxm, hxs, hxb⟩ := xor_sign_fields b hb
  have hs : b / 2147483648 % 2 < 2 := Nat.mod_lt _ (by decide)
  have hround : tensile_xfloat32.float_to_xfloat32 (b ^^^ 0x80000000)
      = tensile_xfloat32.float_to_xfloat32 b ^^^ 0x80000000 := by
    obtain ⟨h1, h1lt⟩ := float_to_xfloat32_sign_split b
    obtain ⟨h2, _⟩ := float_to_xfloat32_sign_split (b ^^^ 0x80000000)
    rw [hxm, hxs] at h2
    have hX : tensile_xfloat32.float_to_xfloat32 b < 4294967296 := by omega
    obtain ⟨hym, hys, hyb⟩ := xor_sign_fields (tensile_xfloat32.float_to_xfloat32 b) hX
    rw [h2]
    generalize tensile_xfloat32.float_to_xfloat32 b ^^^ 0x80000000 = y at *
    generalize tensile_xfloat32.float_to_xfloat32 b = x at *
    generalize tensile_xfloat32.float_to_xfloat32 (b % 2147483648) = r at *
    generalize b / 2147483648 % 2 = s at *
    omega
  have hexp : (b ^^^ 0x80000000) / 8388608 % 256 = b / 8388608 % 256 := by omega
  have hman : (b ^^^ 0x80000000) % 8388608 = b % 8388608 := by omega
  refine ⟨hround, ?_, ?_, ?_⟩
  · unfold tensile_xfloat32.neg tensile_xfloat32.ofFloat
    rw [hround]
  · intro hn
    have hn1 : ¬ (b / 8388608 % 256 = 255 ∧ b % 8388608 ≠ 0) := by
      rw [← std_isnan_arith, hn]
      simp
    rw [float_to_XFloat32_arith, float_to_XFloat32_arith, hexp, hman, if_neg hn1, if_neg hn1]
    have hT : b / 16384 % 262144 * 16384 < 4294967296 := by omega
    obtain ⟨hym, hys, hyb⟩ := xor_sign_fields (b / 16384 % 262144 * 16384) hT
    generalize b / 16384 % 262144 * 16384 ^^^ 0x80000000 = y at *
    generalize b ^^^ 0x80000000 = x at *
    omega
  · intro hn
    have hn1 := (std_isnan_arith b).1 hn
    rw [float_to_XFloat32_arith, float_to_XFloat32_arith, hexp, hman, if_pos hn1, if_pos hn1]
    exact ⟨rfl, rfl, by decide⟩

/-- C19 at the negative signaling NaN `0xFF800001`. -/
theorem sign_flip_commutes_witness :
    0xFF800001 < 2 ^ 32 ∧
      (tensile_xfloat32.float_to_xfloat32 (0xFF800001 ^^^ 0x80000000)
          = tensile_xfloat32.float_to_xfloat32 0xFF800001 ^^^ 0x80000000 ∧
        tensile_xfloat32.ofFloat (0xFF800001 ^^^ 0x80000000)
          = tensile_xfloat32.neg (tensile_xfloat32.ofFloat 0xFF800001) ∧
        (std_isnan 0xFF800001 = false →
          (Tensile.XFloat32.float_to_XFloat32 (0xFF800001 ^^^ 0x80000000)).data
            = (Tensile.XFloat32.float_to_XFloat32 0xFF800001).data ^^^ 0x80000000) ∧
        (std_isnan 0xFF800001 = true →
          (Tensile.XFloat32.float_to_XFloat32 (0xFF800001 ^^^ 0x80000000)).data = 0xFFC10000 ∧
            (Tensile.XFloat32.float_to_XFloat32 0xFF800001).data = 0xFFC10000 ∧
            (Tensile.XFloat32.float_to_XFloat32 (0xFF800001 ^^^ 0x80000000)).data
              ≠ (Tensile.XFloat32.float_to_XFloat32 0xFF800001).data ^^^ 0x80000000)) :=
  ⟨by decide, sign_flip_commutes 0xFF800001 (by decide)⟩

/-- The rounding conversion leaves the low 14 bits zero. -/
theorem float_to_xfloat32_low14 (f : Nat) :
    tensile_xfloat32.float_to_xfloat32 f % 16384 = 0 := by
  rw [float_to_xfloat32_arith]
  split
  · split <;> omega
  · omega

/-- The function `std::iszero` of the truncating variant as arithmetic. -/
theorem XFloat32_iszero_arith (a : Tensile.XFloat32) :
    Tensile.XFloat32.iszero a = true ↔ a.data / 16384 % 131072 * 16384 = 0 := by
  unfold Tensile.XFloat32.iszero
  simp [and_7fffc000]

/-- The function `iszero` of the rounding variant as arithmetic. -/
theorem xfloat32_iszero_arith (a : tensile_xfloat32) :
    tensile_xfloat32.iszero a = true ↔ a.data / 16384 % 131072 * 16384 = 0 := by
  unfold tensile_xfloat32.iszero
  simp [and_7fffc000]

/-- C20: the truncating conversion of `b` is reported zero by `iszero` iff the
magnitude of `b` is below `0x4000`, the rounding conversion iff the magnitude is at most
`0x2000`; in both cases the stored data is then the sign bit of `b` alone, that is
`0x00000000` or `0x80000000`. -/
theorem narrows_to_zero (b : Nat) :
    (Tensile.XFloat32.iszero (Tensile.XFloat32.float_to_XFloat32 b) = true
        ↔ magnitude b < 0x4000) ∧
      (tensile_xfloat32.iszero (tensile_xfloat32.ofFloat b) = true
        ↔ magnitude b ≤ 0x2000) ∧
      (Tensile.XFloat32.iszero (Tensile.XFloat32.float_to_XFloat32 b) = true →
        (Tensile.XFloat32.float_to_XFloat32 b).data = signBit b) ∧
      (tensile_xfloat32.iszero (tensile_xfloat32.ofFloat b) = true →
        (tensile_xfloat32.ofFloat b).data = signBit b) ∧
      (signBit b = 0x00000000 ∨ signBit b = 0x80000000) := by
  have hdata : (tensile_xfloat32.ofFloat b).data = tensile_xfloat32.float_to_xfloat32 b := rfl
  have hs : b / 2147483648 % 2 < 2 := Nat.mod_lt _ (by decide)
  have htr : (Tensile.XFloat32.float_to_XFloat32 b).data / 16384 % 131072 * 16384 = 0
      ↔ b % 2147483648 < 16384 := by
    rw [float_to_XFloat32_arith]
    split <;> omega
  have htrd : b % 2147483648 < 16384 →
      (Tensile.XFloat32.float_to_XFloat32 b).data = b / 2147483648 % 2 * 2147483648 := by
    intro h
    rw [float_to_XFloat32_arith, if_neg (by omega)]
    omega
  obtain ⟨hsplit, hlt⟩ := float_to_xfloat32_sign_split b
  have hlow : tensile_xfloat32.float_to_xfloat32 (b % 2147483648) % 16384 = 0 := by
    exact float_to_xfloat32_low14 (b % 2147483648)
  have hmz : tensile_xfloat32.float_to_xfloat32 (b % 2147483648) = 0
      ↔ b % 2147483648 ≤ 8192 := by
    by_cases hfin : b % 2147483648 / 8388608 % 256 = 255
    · rw [float_to_xfloat32_arith, if_pos hfin]
      split <;> omega
    · have hmm : b % 2147483648 % 2147483648 = b % 2147483648 := by omega
      have hs0 : b % 2147483648 / 2147483648 % 2 = 0 := by omega
      rw [float_to_xfloat32_finite _ hfin, hmm, hs0]
      generalize b % 2147483648 = m at *
      by_cases hsmall : m < 16384
      · have hq : m / 16384 % 2 = 0 := by omega
        rw [hq]
        omega
      · constructor
        · intro h
          have : m / 16384 ≤ (m + (8191 + m / 16384 % 2)) / 16384 := by omega
          omega
        · intro h
          omega
  have hrz : tensile_xfloat32.float_to_xfloat32 b / 16384 % 131072 * 16384 = 0
      ↔ tensile_xfloat32.float_to_xfloat32 (b % 2147483648) = 0 := by
    rw [hsplit]
    generalize tensile_xfloat32.float_to_xfloat32 (b % 2147483648) = r at *
    generalize b / 2147483648 % 2 = s at *
    omega
  rw [XFloat32_iszero_arith, xfloat32_iszero_arith, hdata, magnitude_eq, signBit_eq]
  refine ⟨?_, ?_, ?_, ?_, ?_⟩
  · exact htr
  · rw [hrz, hmz]
  · intro h
    exact htrd (htr.1 h)
  · intro h
    have hz := hrz.1 h
    rw [hsplit, hz, Nat.add_zero]
  · omega

/-! ## Operators -/

/-- The converting constructor of the truncating variant leaves the low 14 bits zero. -/
theorem XFloat32_ofFloat_low14 (v : Nat) :
    (Tensile.XFloat32.ofFloat v).data &&& 0x3FFF = 0 := by
  unfold Tensile.XFloat32.ofFloat
  rw [and_3fff, float_to_XFloat32_arith]
  split <;> omega

/-- The constructor of the rounding variant leaves the low 14 bits zero. -/
theorem xfloat32_ofFloat_low14 (v : Nat) :
    (tensile_xfloat32.ofFloat v).data &&& 0x3FFF = 0 := by
  unfold tensile_xfloat32.ofFloat
  rw [and_3fff]
  exact float_to_xfloat32_low14 v

/-- C16, as stated, fails for the post-increment and post-decrement: on an operand with
data `0x00000001` they return that operand, whose low 14 bits are not zero. -/
theorem post_increment_returns_operand :
    (Tensile.XFloat32.post_inc zeroOps { data := 0x00000001 }).1.data &&& 0x3FFF ≠ 0 ∧
      (tensile_xfloat32.post_inc zeroOps { data := 0x00000001 }).1.data &&& 0x3FFF ≠ 0 ∧
      (tensile_xfloat32.post_dec zeroOps { data := 0x00000001 }).1.data &&& 0x3FFF ≠ 0 := by
  decide

/-- C16, amended: whatever the float32 operations compute, in both variants the results
of `a + b`, `a - b`, `a * b`, `a / b`, `int + a`, `a + int`, of the compound assignments,
of the pre-increment (and pre-decrement), and of `abs`, `sin`, `cos` have their low 14
bits zero, and so has the operand after a post-increment or post-decrement; the value a
post-increment or post-decrement returns is the operand as it was, and the rounding
variant's unary `+` and unary `-` return a value with low 14 bits zero whenever the
operand's low 14 bits are zero. -/
theorem operations_keep_low14_zero (ops : FloatOps) (i : Int) (a b : Tensile.XFloat32)
    (x y : tensile_xfloat32) :
    ((Tensile.XFloat32.add ops a b).data &&& 0x3FFF = 0 ∧
        (Tensile.XFloat32.sub ops a b).data &&& 0x3FFF = 0 ∧
        (Tensile.XFloat32.mul ops a b).data &&& 0x3FFF = 0 ∧
        (Tensile.XFloat32.div ops a b).data &&& 0x3FFF = 0 ∧
        (Tensile.XFloat32.add_int_left ops i a).data &&& 0x3FFF = 0 ∧
        (Tensile.XFloat32.add_int_right ops a i).data &&& 0x3FFF = 0 ∧
        (Tensile.XFloat32.add_assign ops a b).data &&& 0x3FFF = 0 ∧
        (Tensile.XFloat32.sub_assign ops a b).data &&& 0x3FFF = 0 ∧
        (Tensile.XFloat32.mul_assign ops a b).data &&& 0x3FFF = 0 ∧
        (Tensile.XFloat32.div_assign ops a b).data &&& 0x3FFF = 0 ∧
        (Tensile.XFloat32.pre_inc ops a).1.data &&& 0x3FFF = 0 ∧
        (Tensile.XFloat32.pre_inc ops a).2.data &&& 0x3FFF = 0 ∧
        (Tensile.XFloat32.post_inc ops a).2.data &&& 0x3FFF = 0 ∧
        (Tensile.XFloat32.post_inc ops a).1 = a ∧
        (Tensile.XFloat32.abs ops a).data &&& 0x3FFF = 0 ∧
        (Tensile.XFloat32.sin ops a).data &&& 0x3FFF = 0 ∧
        (Tensile.XFloat32.cos ops a).data &&& 0x3FFF = 0) ∧
      ((tensile_xfloat32.add ops x y).data &&& 0x3FFF = 0 ∧
        (tensile_xfloat32.sub ops x y).data &&& 0x3FFF = 0 ∧
        (tensile_xfloat32.mul ops x y).data &&& 0x3FFF = 0 ∧
        (tensile_xfloat32.div ops x y).data &&& 0x3FFF = 0 ∧
        (tensile_xfloat32.add_int_left ops i x).data &&& 0x3FFF = 0 ∧
        (tensile_xfloat32.add_int_right ops x i).data &&& 0x3FFF = 0 ∧
        (tensile_xfloat32.add_assign ops x y).data &&& 0x3FFF = 0 ∧
        (tensile_xfloat32.sub_assign ops x y).data &&& 0x3FFF = 0 ∧
        (tensile_xfloat32.mul_assign ops x y).data &&& 0x3FFF = 0 ∧
        (tensile_xfloat32.div_assign ops x y).data &&& 0x3FFF = 0 ∧
        (tensile_xfloat32.pre_inc ops x).1.data &&& 0x3FFF = 0 ∧
        (tensile_xfloat32.pre_inc ops x).2.data &&& 0x3FFF = 0 ∧
        (tensile_xfloat32.pre_dec ops x).1.data &&& 0x3FFF = 0 ∧
        (tensile_xfloat32.pre_dec ops x).2.data &&& 0x3FFF = 0 ∧
        (tensile_xfloat32.post_inc ops x).2.data &&& 0x3FFF = 0 ∧
        (tensile_xfloat32.post_dec ops x).2.data &&& 0x3FFF = 0 ∧
        (tensile_xfloat32.post_inc ops x).1 = x ∧
        (tensile_xfloat32.post_dec ops x).1 = x ∧
        (tensile_xfloat32.sin ops x).data &&& 0x3FFF = 0 ∧
        (tensile_xfloat32.cos ops x).data &&& 0x3FFF = 0) ∧
      (x.data &&& 0x3FFF = 0 →
        (tensile_xfloat32.pos x).data &&& 0x3FFF = 0 ∧
          (tensile_xfloat32.neg x).data &&& 0x3FFF = 0) := by
  refine ⟨⟨?_, ?_, ?_, ?_, ?_, ?_, ?_, ?_, ?_, ?_, ?_, ?_, ?_, rfl, ?_, ?_, ?_⟩,
    ⟨?_, ?_, ?_, ?_, ?_, ?_, ?_, ?_, ?_, ?_, ?_, ?_, ?_, ?_, ?_, ?_, rfl, rfl, ?_, ?_⟩, ?_⟩
  any_goals exact XFloat32_ofFloat_low14 _
  any_goals exact xfloat32_ofFloat_low14 _
  intro hx
  refine ⟨hx, ?_⟩
  unfold tensile_xfloat32.neg
  rw [Nat.and_xor_distrib_right, hx]
  decide
